import Mathlib

/-!
Verification development for the gemini-handler repository.

The definitions below are a shallow embedding of the Python sources:

* `key_rotation.py` (KeyRotationManager and its four selection strategies),
* `data_models.py` (KeyStats, ModelResponse, ModelConfig),
* `response_handler.py` (ResponseHandler.process_response),
* `strategies.py` (ContentStrategy._try_generate and the three content
  strategies),
* `gemini_handler.py` (GeminiHandler.generate_content), and
* `v2/test/gemini_gateway.py` (proxy health checking, whitelist maintenance
  and whitelisted-proxy selection).

Modelling conventions, used consistently:

* Wall-clock time (Python time.time) is an explicit integer parameter `now`;
  a single call of a top-level operation reads one `now` value.  A sleep is
  a pure delay and does not change manager state.
* Python loops that can spin forever (the busy-wait key scans) take an
  explicit fuel argument; `none` means the loop was still running after
  `fuel` iterations.
* Python dynamic errors are values of `PyErr`.  A call of a method that a
  class does not define is an `attributeError`; a dataclass constructor call
  with an unknown keyword argument is a `typeError`.  Computations that can
  raise live in `Except PyErr`.
* Mutable per-key statistics dictionaries become a total function
  `Nat → KeyStats`; only in-range indices are ever read or written by the
  translated operations, matching the guarded accesses of the source.
-/

namespace GeminiHandlerSpec

/-- data_models.py lines 22-28: per-key usage statistics (class KeyStats).
All four fields default to 0. -/
structure KeyStats where
  uses : Nat := 0
  last_used : Int := 0
  failures : Nat := 0
  rate_limited_until : Int := 0
deriving Repr, DecidableEq

/-- data_models.py lines 14-19: the four key-rotation strategies. -/
inductive KeyRotationStrategy
  | sequential
  | round_robin
  | least_used
  | smart_cooldown
deriving Repr, DecidableEq

/-- key_rotation.py lines 10-28: the state of a KeyRotationManager.
`cycle_pos` counts how many elements have been taken from the
itertools.cycle over range(len(api_keys)); `current_index` is the cursor of
the sequential strategy. -/
structure KeyRotationManager where
  api_keys : List String
  strategy : KeyRotationStrategy
  rate_limit : Nat
  reset_window : Int
  key_stats : Nat → KeyStats
  cycle_pos : Nat
  current_index : Nat

/-- Number of configured keys (len(self.api_keys)). -/
def KeyRotationManager.numKeys (m : KeyRotationManager) : Nat :=
  m.api_keys.length

/-- key_rotation.py lines 10-28: the constructor state (the source raises
ValueError on an empty key list before reaching this state; theorems about
fresh managers carry a nonemptiness hypothesis instead). -/
def KeyRotationManager.init (keys : List String) (strat : KeyRotationStrategy)
    (rl : Nat) (rw : Int) : KeyRotationManager :=
  { api_keys := keys, strategy := strat, rate_limit := rl, reset_window := rw,
    key_stats := fun _ => {}, cycle_pos := 0, current_index := 0 }

/-- Write one key's statistics record (mutation of self.key_stats[i]). -/
def KeyRotationManager.setStat (m : KeyRotationManager) (i : Nat)
    (s : KeyStats) : KeyRotationManager :=
  { m with key_stats := fun j => if j = i then s else m.key_stats j }

/-- key_rotation.py lines 30-41, _is_key_available: returns the availability
boolean and the (possibly mutated) manager, since the idle-reset assigns
stats.uses = 0 in place before the final comparison. -/
def is_key_available (m : KeyRotationManager) (now : Int) (i : Nat) :
    Bool × KeyRotationManager :=
  let stats := m.key_stats i
  if now < stats.rate_limited_until then (false, m)
  else
    let stats' := if now - stats.last_used > m.reset_window then
        { stats with uses := 0 } else stats
    (decide (stats'.uses < m.rate_limit), m.setStat i stats')

/-- key_rotation.py lines 102-113, _handle_all_keys_busy: reset uses of
every key idle longer than the reset window.  The time.sleep(1) branch is a
pure delay and does not change manager state. -/
def handle_all_keys_busy (m : KeyRotationManager) (now : Int) :
    KeyRotationManager :=
  { m with key_stats := fun j =>
      if j < m.numKeys ∧ now - (m.key_stats j).last_used > m.reset_window then
        { m.key_stats j with uses := 0 }
      else m.key_stats j }

/-- One unavailable-key iteration of the _get_sequential_key loop: apply
the availability check mutation, advance the cursor, and run the busy
handler when the cursor has wrapped back to the captured start index. -/
def seq_step (m : KeyRotationManager) (now : Int) (start_index : Nat) :
    KeyRotationManager :=
  let m₂ := { (is_key_available m now m.current_index).2 with
    current_index := (m.current_index + 1) % m.numKeys }
  if m₂.current_index = start_index then handle_all_keys_busy m₂ now else m₂

/-- key_rotation.py lines 43-55, the while-loop of _get_sequential_key,
with explicit fuel. -/
def seq_scan (m : KeyRotationManager) (now : Int) (start_index : Nat) :
    Nat → Option (Nat × KeyRotationManager)
  | 0 => none
  | fuel + 1 =>
    let a := is_key_available m now m.current_index
    if a.1 then
      some (m.current_index,
        { a.2 with current_index := (m.current_index + 1) % m.numKeys })
    else
      seq_scan (seq_step m now start_index) now start_index fuel

/-- key_rotation.py lines 43-55, _get_sequential_key. -/
def get_sequential_key (m : KeyRotationManager) (now : Int) (fuel : Nat) :
    Option (Nat × KeyRotationManager) :=
  seq_scan m now m.current_index fuel

/-- One step of the itertools.cycle over range(numKeys): yields
cycle_pos % numKeys and advances the cycle. -/
def cycle_next (m : KeyRotationManager) : Nat × KeyRotationManager :=
  (m.cycle_pos % m.numKeys, { m with cycle_pos := m.cycle_pos + 1 })

/-- One unavailable-key iteration of the _get_round_robin_key loop: apply
the check mutation, pull the next cycle element, and run the busy handler if
it equals the captured start index.  Returns the new state and the new
candidate index. -/
def rr_step (m : KeyRotationManager) (now : Int) (start_index cur : Nat) :
    KeyRotationManager × Nat :=
  let c := cycle_next (is_key_available m now cur).2
  (if c.1 = start_index then handle_all_keys_busy c.2 now else c.2, c.1)

/-- key_rotation.py lines 57-68, the while-loop of _get_round_robin_key. -/
def rr_scan (m : KeyRotationManager) (now : Int) (start_index cur : Nat) :
    Nat → Option (Nat × KeyRotationManager)
  | 0 => none
  | fuel + 1 =>
    let a := is_key_available m now cur
    if a.1 then some (cur, a.2)
    else
      rr_scan (rr_step m now start_index cur).1 now start_index
        (rr_step m now start_index cur).2 fuel

/-- key_rotation.py lines 57-68, _get_round_robin_key: take the next cycle
element as both start index and first candidate, then loop. -/
def get_round_robin_key (m : KeyRotationManager) (now : Int) (fuel : Nat) :
    Option (Nat × KeyRotationManager) :=
  let s := cycle_next m
  rr_scan s.2 now s.1 s.1 fuel

/-- key_rotation.py lines 73-76: the availability list comprehension of
_get_least_used_key.  It runs the mutating check on every index in
insertion order (0, 1, ...) and collects the indices that passed. -/
def collect_avail_go (now : Int) :
    List Nat → KeyRotationManager → List Nat × KeyRotationManager
  | [], m => ([], m)
  | i :: rest, m =>
    let a := is_key_available m now i
    let r := collect_avail_go now rest a.2
    (if a.1 then i :: r.1 else r.1, r.2)

/-- The availability comprehension over all key indices. -/
def collect_available (m : KeyRotationManager) (now : Int) :
    List Nat × KeyRotationManager :=
  collect_avail_go now (List.range m.numKeys) m

/-- key_rotation.py line 79: min(available_keys, key = uses), which returns
the first index of minimal uses (Python min keeps the earliest tie). -/
def argmin_uses (m : KeyRotationManager) : List Nat → Option Nat
  | [] => none
  | i :: rest =>
    match argmin_uses m rest with
    | none => some i
    | some j =>
      if (m.key_stats j).uses < (m.key_stats i).uses then some j else some i

/-- key_rotation.py lines 70-82, the while-loop of _get_least_used_key. -/
def least_used_scan (m : KeyRotationManager) (now : Int) :
    Nat → Option (Nat × KeyRotationManager)
  | 0 => none
  | fuel + 1 =>
    let c := collect_available m now
    match argmin_uses c.2 c.1 with
    | some i => some (i, c.2)
    | none => least_used_scan (handle_all_keys_busy c.2 now) now fuel

/-- key_rotation.py lines 88-91: the filtered comprehension of
_get_smart_cooldown_key; the short-circuiting `and` only runs the mutating
availability check when now is at or past the cooldown deadline. -/
def collect_smart_go (now : Int) :
    List Nat → KeyRotationManager → List Nat × KeyRotationManager
  | [], m => ([], m)
  | i :: rest, m =>
    if now ≥ (m.key_stats i).rate_limited_until then
      let a := is_key_available m now i
      let r := collect_smart_go now rest a.2
      (if a.1 then i :: r.1 else r.1, r.2)
    else
      collect_smart_go now rest m

/-- key_rotation.py line 96: the strict lexicographic comparison on
(failures, -(now - last_used)) used by the smart-cooldown min. -/
def smart_lt (m : KeyRotationManager) (now : Int) (j i : Nat) : Bool :=
  decide ((m.key_stats j).failures < (m.key_stats i).failures) ||
    (decide ((m.key_stats j).failures = (m.key_stats i).failures) &&
      decide (-(now - (m.key_stats j).last_used) <
        -(now - (m.key_stats i).last_used)))

/-- key_rotation.py lines 93-97: min with the smart-cooldown key, keeping
the earliest index on ties. -/
def argmin_smart (m : KeyRotationManager) (now : Int) : List Nat → Option Nat
  | [] => none
  | i :: rest =>
    match argmin_smart m now rest with
    | none => some i
    | some j => if smart_lt m now j i then some j else some i

/-- key_rotation.py lines 84-100, the while-loop of
_get_smart_cooldown_key. -/
def smart_cooldown_scan (m : KeyRotationManager) (now : Int) :
    Nat → Option (Nat × KeyRotationManager)
  | 0 => none
  | fuel + 1 =>
    let c := collect_smart_go now (List.range m.numKeys) m
    match argmin_smart c.2 now c.1 with
    | some i => some (i, c.2)
    | none => smart_cooldown_scan (handle_all_keys_busy c.2 now) now fuel

/-- key_rotation.py lines 115-134, get_next_key: dispatch on the strategy,
then increment the selected key's uses and stamp last_used inside the same
call. -/
def get_next_key (m : KeyRotationManager) (now : Int) (fuel : Nat) :
    Option ((String × Nat) × KeyRotationManager) :=
  let scan :=
    match m.strategy with
    | .sequential => get_sequential_key m now fuel
    | .round_robin => get_round_robin_key m now fuel
    | .least_used => least_used_scan m now fuel
    | .smart_cooldown => smart_cooldown_scan m now fuel
  match scan with
  | none => none
  | some (i, m₁) =>
    let st := m₁.key_stats i
    some ((m₁.api_keys.getD i "", i),
      m₁.setStat i { st with uses := st.uses + 1, last_used := now })

/-- key_rotation.py lines 136-139, mark_success: in-range guard, then clear
failures.  The index is an arbitrary integer exactly as in Python. -/
def mark_success (m : KeyRotationManager) (i : Int) : KeyRotationManager :=
  if 0 ≤ i ∧ i < (m.numKeys : Int) then
    let st := m.key_stats i.toNat
    m.setStat i.toNat { st with failures := 0 }
  else m

/-- key_rotation.py lines 141-147, mark_rate_limited: in-range guard, then
increment failures, set the cooldown deadline, and force uses to the rate
limit. -/
def mark_rate_limited (m : KeyRotationManager) (now : Int) (i : Int) :
    KeyRotationManager :=
  if 0 ≤ i ∧ i < (m.numKeys : Int) then
    let st := m.key_stats i.toNat
    m.setStat i.toNat
      { st with failures := st.failures + 1,
                rate_limited_until := now + m.reset_window,
                uses := m.rate_limit }
  else m

/-- The effective uses count the availability check compares against the
rate limit: 0 when the key has been idle longer than the reset window,
otherwise the stored uses. -/
def eff_uses (m : KeyRotationManager) (now : Int) (j : Nat) : Nat :=
  if now - (m.key_stats j).last_used > m.reset_window then 0
  else (m.key_stats j).uses

/-- The boolean _is_key_available computes, expressed without the in-place
mutation: not in cooldown, and effective uses below the rate limit. -/
def is_available_pure (m : KeyRotationManager) (now : Int) (i : Nat) : Bool :=
  decide ((m.key_stats i).rate_limited_until ≤ now) &&
    decide (eff_uses m now i < m.rate_limit)

theorem is_key_available_fst (m : KeyRotationManager) (now : Int) (i : Nat) :
    (is_key_available m now i).1 = is_available_pure m now i := by
  unfold is_key_available is_available_pure eff_uses
  by_cases h : now < (m.key_stats i).rate_limited_until
  · simp [h, not_le.mpr h]
  · by_cases hid : now - (m.key_stats i).last_used > m.reset_window <;>
      simp [h, hid, not_lt.mp h]

/-- Frame relation between manager states: everything except the stored
uses counters is unchanged, and even the effective uses (as judged at time
`now`) are unchanged.  All internal steps of a key scan (availability
checks, busy handling) stay in this relation. -/
def FrameEq (now : Int) (m m' : KeyRotationManager) : Prop :=
  m'.api_keys = m.api_keys ∧ m'.strategy = m.strategy ∧
  m'.rate_limit = m.rate_limit ∧ m'.reset_window = m.reset_window ∧
  (∀ j, (m'.key_stats j).last_used = (m.key_stats j).last_used) ∧
  (∀ j, (m'.key_stats j).rate_limited_until =
    (m.key_stats j).rate_limited_until) ∧
  (∀ j, (m'.key_stats j).failures = (m.key_stats j).failures) ∧
  (∀ j, eff_uses m' now j = eff_uses m now j)

theorem frame_refl (now : Int) (m : KeyRotationManager) : FrameEq now m m :=
  ⟨rfl, rfl, rfl, rfl, fun _ => rfl, fun _ => rfl, fun _ => rfl, fun _ => rfl⟩

theorem frame_trans {now : Int} {m₁ m₂ m₃ : KeyRotationManager}
    (h₁ : FrameEq now m₁ m₂) (h₂ : FrameEq now m₂ m₃) : FrameEq now m₁ m₃ := by
  obtain ⟨a1, b1, c1, d1, e1, f1, g1, k1⟩ := h₁
  obtain ⟨a2, b2, c2, d2, e2, f2, g2, k2⟩ := h₂
  exact ⟨a2.trans a1, b2.trans b1, c2.trans c1, d2.trans d1,
    fun j => (e2 j).trans (e1 j), fun j => (f2 j).trans (f1 j),
    fun j => (g2 j).trans (g1 j), fun j => (k2 j).trans (k1 j)⟩

theorem FrameEq.numKeys_eq {now : Int} {m m' : KeyRotationManager}
    (h : FrameEq now m m') : m'.numKeys = m.numKeys := by
  unfold KeyRotationManager.numKeys
  rw [h.1]

theorem FrameEq.avail_eq {now : Int} {m m' : KeyRotationManager}
    (h : FrameEq now m m') (j : Nat) :
    is_available_pure m' now j = is_available_pure m now j := by
  obtain ⟨hak, hst, hrl, hrw, hlu, hrlu, hfail, heff⟩ := h
  unfold is_available_pure
  rw [hrlu, heff, hrl]

theorem frame_set_cur (now : Int) (m : KeyRotationManager) (x : Nat) :
    FrameEq now m { m with current_index := x } :=
  ⟨rfl, rfl, rfl, rfl, fun _ => rfl, fun _ => rfl, fun _ => rfl, fun _ => rfl⟩

theorem frame_cycle (now : Int) (m : KeyRotationManager) :
    FrameEq now m (cycle_next m).2 :=
  ⟨rfl, rfl, rfl, rfl, fun _ => rfl, fun _ => rfl, fun _ => rfl, fun _ => rfl⟩

theorem setStat_key_stats (m : KeyRotationManager) (i : Nat) (s : KeyStats)
    (j : Nat) :
    (m.setStat i s).key_stats j = if j = i then s else m.key_stats j := rfl

theorem frame_iav (now : Int) (m : KeyRotationManager) (i : Nat) :
    FrameEq now m (is_key_available m now i).2 := by
  unfold is_key_available
  by_cases h : now < (m.key_stats i).rate_limited_until
  · rw [if_pos h]
    exact frame_refl now m
  · rw [if_neg h]
    dsimp only
    refine ⟨rfl, rfl, rfl, rfl, fun j => ?_, fun j => ?_, fun j => ?_,
      fun j => ?_⟩ <;>
      by_cases hj : j = i <;>
      by_cases hid : now - (m.key_stats i).last_used > m.reset_window <;>
      simp [setStat_key_stats, hj, hid, eff_uses, KeyRotationManager.setStat]

theorem frame_busy (now : Int) (m : KeyRotationManager) :
    FrameEq now m (handle_all_keys_busy m now) := by
  unfold handle_all_keys_busy
  refine ⟨rfl, rfl, rfl, rfl, fun j => ?_, fun j => ?_, fun j => ?_,
    fun j => ?_⟩
  · dsimp only
    by_cases hc : j < m.numKeys ∧ now - (m.key_stats j).last_used >
        m.reset_window
    · rw [if_pos hc]
    · rw [if_neg hc]
  · dsimp only
    by_cases hc : j < m.numKeys ∧ now - (m.key_stats j).last_used >
        m.reset_window
    · rw [if_pos hc]
    · rw [if_neg hc]
  · dsimp only
    by_cases hc : j < m.numKeys ∧ now - (m.key_stats j).last_used >
        m.reset_window
    · rw [if_pos hc]
    · rw [if_neg hc]
  · unfold eff_uses
    dsimp only
    by_cases hc : j < m.numKeys ∧ now - (m.key_stats j).last_used >
        m.reset_window
    · rw [if_pos hc]
      simp [hc.2]
    · rw [if_neg hc]

theorem iav_snd_current_index (now : Int) (m : KeyRotationManager) (i : Nat) :
    (is_key_available m now i).2.current_index = m.current_index := by
  unfold is_key_available
  by_cases h : now < (m.key_stats i).rate_limited_until <;>
    simp [h, KeyRotationManager.setStat]

theorem iav_snd_cycle_pos (now : Int) (m : KeyRotationManager) (i : Nat) :
    (is_key_available m now i).2.cycle_pos = m.cycle_pos := by
  unfold is_key_available
  by_cases h : now < (m.key_stats i).rate_limited_until <;>
    simp [h, KeyRotationManager.setStat]

theorem busy_current_index (now : Int) (m : KeyRotationManager) :
    (handle_all_keys_busy m now).current_index = m.current_index := rfl

/-- gemini-handler claim C10 support: both report operations are total and
guarded; on an out-of-range index they return the manager unchanged. -/
theorem claim10_out_of_range_reports_are_noops
    (m : KeyRotationManager) (now : Int) (i : Int)
    (h : i < 0 ∨ (m.numKeys : Int) ≤ i) :
    mark_success m i = m ∧ mark_rate_limited m now i = m := by
  have hg : ¬ (0 ≤ i ∧ i < (m.numKeys : Int)) := by omega
  constructor
  · unfold mark_success
    rw [if_neg hg]
  · unfold mark_rate_limited
    rw [if_neg hg]

theorem claim10_witness :
    ((5 : Int) < 0 ∨ ((KeyRotationManager.init ["k0"] .round_robin 60
        60).numKeys : Int) ≤ 5)
    ∧ mark_success (KeyRotationManager.init ["k0"] .round_robin 60 60) 5
        = KeyRotationManager.init ["k0"] .round_robin 60 60
    ∧ mark_rate_limited (KeyRotationManager.init ["k0"] .round_robin 60 60)
        100 5 = KeyRotationManager.init ["k0"] .round_robin 60 60 := by
  have h : (5 : Int) < 0 ∨ ((KeyRotationManager.init ["k0"] .round_robin 60
      60).numKeys : Int) ≤ 5 := by
    right
    decide
  have h2 := claim10_out_of_range_reports_are_noops
    (KeyRotationManager.init ["k0"] .round_robin 60 60) 100 5 h
  exact ⟨h, h2.1, h2.2⟩

/-- Run `cnt` consecutive get_next_key calls at time `now`, collecting the
returned key indices (the fuel of each call is the pool size). -/
def run_next_keys (m : KeyRotationManager) (now : Int) :
    Nat → Option (List Nat × KeyRotationManager)
  | 0 => some ([], m)
  | n + 1 =>
    match get_next_key m now m.numKeys with
    | none => none
    | some ((_, i), m') =>
      match run_next_keys m' now n with
      | none => none
      | some (l, m'') => some (i :: l, m'')

theorem rr_scan_head (m : KeyRotationManager) (now : Int) (s cur fuel : Nat)
    (h : (is_key_available m now cur).1 = true) :
    rr_scan m now s cur (fuel + 1)
      = some (cur, (is_key_available m now cur).2) := by
  simp [rr_scan, h]

theorem rr_fresh_run (now : Int) (h0 : 0 ≤ now) :
    ∀ (cnt : Nat) (m : KeyRotationManager),
      m.strategy = .round_robin → 1 ≤ m.rate_limit →
      m.cycle_pos + cnt ≤ m.numKeys →
      (∀ j, m.cycle_pos ≤ j → (m.key_stats j).uses = 0 ∧
        (m.key_stats j).rate_limited_until ≤ now) →
      ∃ m', run_next_keys m now cnt
          = some (List.range' m.cycle_pos cnt, m') := by
  intro cnt
  induction cnt with
  | zero =>
    intro m _ _ _ _
    exact ⟨m, rfl⟩
  | succ n ih =>
    intro m hstrat hrl hcnt hfresh
    have hcN : m.cycle_pos < m.numKeys := by omega
    have hNpos : 0 < m.numKeys := by omega
    have hmod : m.cycle_pos % m.numKeys = m.cycle_pos := Nat.mod_eq_of_lt hcN
    have hcyc1 : (cycle_next m).1 = m.cycle_pos := hmod
    -- the availability check at the fresh key succeeds
    have hav : (is_key_available (cycle_next m).2 now m.cycle_pos).1
        = true := by
      rw [is_key_available_fst]
      unfold is_available_pure eff_uses
      have h1 := (hfresh m.cycle_pos (le_refl _)).1
      have h2 := (hfresh m.cycle_pos (le_refl _)).2
      have hstats : (cycle_next m).2.key_stats m.cycle_pos
          = m.key_stats m.cycle_pos := rfl
      have hrwf : (cycle_next m).2.reset_window = m.reset_window := rfl
      have hrlf : (cycle_next m).2.rate_limit = m.rate_limit := rfl
      rw [hstats, hrwf, hrlf]
      simp only [Bool.and_eq_true, decide_eq_true_eq]
      refine ⟨h2, ?_⟩
      by_cases hid : now - (m.key_stats m.cycle_pos).last_used >
          m.reset_window
      · rw [if_pos hid]
        omega
      · rw [if_neg hid]
        omega
    obtain ⟨f, hf⟩ : ∃ f, m.numKeys = f + 1 := ⟨m.numKeys - 1, by omega⟩
    set m1 := (is_key_available (cycle_next m).2 now m.cycle_pos).2 with hm1
    have hscan : get_round_robin_key m now m.numKeys
        = some (m.cycle_pos, m1) := by
      rw [hf]
      unfold get_round_robin_key
      simp only []
      rw [hcyc1]
      exact rr_scan_head (cycle_next m).2 now m.cycle_pos m.cycle_pos f hav
    set m2 := m1.setStat m.cycle_pos { m1.key_stats m.cycle_pos with
      uses := (m1.key_stats m.cycle_pos).uses + 1, last_used := now }
      with hm2
    have hnext : get_next_key m now m.numKeys
        = some ((m1.api_keys.getD m.cycle_pos "", m.cycle_pos), m2) := by
      unfold get_next_key
      rw [hstrat]
      simp only []
      rw [hscan]
    -- facts about m1 and m2
    have hfmc : FrameEq now (cycle_next m).2 m1 := by
      rw [hm1]
      exact frame_iav now (cycle_next m).2 m.cycle_pos
    have hm1keys : m1.api_keys = m.api_keys := hfmc.1
    have hm1strat : m1.strategy = m.strategy := hfmc.2.1
    have hm1rl : m1.rate_limit = m.rate_limit := hfmc.2.2.1
    have hm1cp : m1.cycle_pos = m.cycle_pos + 1 := by
      rw [hm1]
      exact iav_snd_cycle_pos now (cycle_next m).2 m.cycle_pos
    have hm2keys : m2.api_keys = m.api_keys := hm1keys
    have hm2N : m2.numKeys = m.numKeys := by
      unfold KeyRotationManager.numKeys
      rw [hm2keys]
    have hm2strat : m2.strategy = .round_robin := by
      have : m2.strategy = m1.strategy := rfl
      rw [this, hm1strat, hstrat]
    have hm2rl : m2.rate_limit = m.rate_limit := hm1rl
    have hm2cp : m2.cycle_pos = m.cycle_pos + 1 := by
      have : m2.cycle_pos = m1.cycle_pos := rfl
      rw [this, hm1cp]
    have hm2stats : ∀ j, m.cycle_pos + 1 ≤ j →
        m2.key_stats j = m.key_stats j := by
      intro j hjc
      have hne : j ≠ m.cycle_pos := by omega
      have e1 : m2.key_stats j = m1.key_stats j := by
        rw [hm2, setStat_key_stats, if_neg hne]
      have e2 : m1.key_stats j = (cycle_next m).2.key_stats j := by
        rw [hm1]
        unfold is_key_available
        by_cases hb : now <
            ((cycle_next m).2.key_stats m.cycle_pos).rate_limited_until
        · rw [if_pos hb]
        · rw [if_neg hb]
          dsimp only
          rw [setStat_key_stats, if_neg hne]
      rw [e1, e2]
      rfl
    have hrec := ih m2 hm2strat (by rw [hm2rl]; exact hrl)
      (by rw [hm2cp, hm2N]; omega)
      (by
        intro j hj
        rw [hm2cp] at hj
        rw [hm2stats j hj]
        exact hfresh j (by omega))
    obtain ⟨m', hm'⟩ := hrec
    rw [hm2cp] at hm'
    refine ⟨m', ?_⟩
    show run_next_keys m now (n + 1)
      = some (List.range' m.cycle_pos (n + 1), m')
    rw [List.range'_succ]
    simp only [run_next_keys]
    rw [hnext]
    simp only []
    rw [hm']

/-- gemini-handler claim C4: from the constructor state of a round-robin
key manager, as many consecutive get_next_key calls as there are keys
return the indices 0, 1, ..., N-1 (each exactly once, in index order). -/
theorem claim4_round_robin_full_cycle
    (keys : List String) (hk : keys ≠ []) (rl : Nat) (hrl : 1 ≤ rl)
    (rw now : Int) (h0 : 0 ≤ now) :
    ∃ m', run_next_keys (KeyRotationManager.init keys .round_robin rl rw)
        now keys.length = some (List.range keys.length, m') := by
  have h := rr_fresh_run now h0 keys.length
    (KeyRotationManager.init keys .round_robin rl rw) rfl hrl
    (by simp [KeyRotationManager.init, KeyRotationManager.numKeys])
    (by
      intro j _
      constructor <;> simp [KeyRotationManager.init] <;> exact h0)
  obtain ⟨m', hm'⟩ := h
  refine ⟨m', ?_⟩
  rw [hm']
  have : List.range keys.length = List.range' 0 keys.length :=
    List.range_eq_range' keys.length
  rw [this]
  rfl

theorem claim4_witness :
    (["ka", "kb", "kc"] : List String) ≠ [] ∧ (1 ≤ 60) ∧ ((0 : Int) ≤ 7)
    ∧ ∃ m', run_next_keys
        (KeyRotationManager.init ["ka", "kb", "kc"] .round_robin 60 60) 7 3
      = some (List.range 3, m') := by
  refine ⟨by decide, by decide, by decide, ?_⟩
  exact claim4_round_robin_full_cycle ["ka", "kb", "kc"] (by decide) 60
    (by decide) 60 7 (by decide)

theorem FrameEq.rw_eq {now : Int} {m m' : KeyRotationManager}
    (h : FrameEq now m m') : m'.reset_window = m.reset_window :=
  h.2.2.2.1

theorem FrameEq.lu_eq {now : Int} {m m' : KeyRotationManager}
    (h : FrameEq now m m') (j : Nat) :
    (m'.key_stats j).last_used = (m.key_stats j).last_used :=
  h.2.2.2.2.1 j

theorem FrameEq.rlu_eq {now : Int} {m m' : KeyRotationManager}
    (h : FrameEq now m m') (j : Nat) :
    (m'.key_stats j).rate_limited_until = (m.key_stats j).rate_limited_until :=
  h.2.2.2.2.2.1 j

theorem avail_pure_rlu {m : KeyRotationManager} {now : Int} {i : Nat}
    (h : is_available_pure m now i = true) :
    (m.key_stats i).rate_limited_until ≤ now := by
  unfold is_available_pure at h
  simp only [Bool.and_eq_true, decide_eq_true_eq] at h
  exact h.1

theorem iav_stats_ne (now : Int) (m : KeyRotationManager) (i j : Nat)
    (hne : j ≠ i) :
    (is_key_available m now i).2.key_stats j = m.key_stats j := by
  unfold is_key_available
  by_cases hb : now < (m.key_stats i).rate_limited_until
  · rw [if_pos hb]
  · rw [if_neg hb]
    dsimp only
    rw [setStat_key_stats, if_neg hne]

theorem iav_self_uses_zero (now : Int) (m : KeyRotationManager) (i : Nat)
    (hb : (m.key_stats i).rate_limited_until ≤ now)
    (hidle : now - (m.key_stats i).last_used > m.reset_window) :
    ((is_key_available m now i).2.key_stats i).uses = 0 := by
  unfold is_key_available
  rw [if_neg (not_lt.mpr hb)]
  dsimp only
  rw [setStat_key_stats, if_pos rfl, if_pos hidle]

theorem frame_seq_step (now : Int) (m : KeyRotationManager) (s : Nat) :
    FrameEq now m (seq_step m now s) := by
  simp only [seq_step]
  have f2 : FrameEq now m { (is_key_available m now m.current_index).2 with
      current_index := (m.current_index + 1) % m.numKeys } :=
    frame_trans (frame_iav now m m.current_index) (frame_set_cur now _ _)
  by_cases hc : ({ (is_key_available m now m.current_index).2 with
      current_index := (m.current_index + 1) % m.numKeys } :
      KeyRotationManager).current_index = s
  · rw [if_pos hc]
    exact frame_trans f2 (frame_busy now _)
  · rw [if_neg hc]
    exact f2

theorem seq_step_cur (now : Int) (m : KeyRotationManager) (s : Nat) :
    (seq_step m now s).current_index = (m.current_index + 1) % m.numKeys := by
  simp only [seq_step]
  by_cases hc : ({ (is_key_available m now m.current_index).2 with
      current_index := (m.current_index + 1) % m.numKeys } :
      KeyRotationManager).current_index = s
  · rw [if_pos hc]
    rw [busy_current_index]
  · rw [if_neg hc]

theorem frame_rr_step (now : Int) (m : KeyRotationManager) (s cur : Nat) :
    FrameEq now m (rr_step m now s cur).1 := by
  simp only [rr_step]
  have f2 : FrameEq now m (cycle_next (is_key_available m now cur).2).2 :=
    frame_trans (frame_iav now m cur)
      (frame_cycle now (is_key_available m now cur).2)
  by_cases hc : (cycle_next (is_key_available m now cur).2).1 = s
  · rw [if_pos hc]
    exact frame_trans f2 (frame_busy now _)
  · rw [if_neg hc]
    exact f2

/-- Selection soundness for the sequential scan: a returned index was not
in cooldown at scan time. -/
theorem seq_scan_rlu_le (now : Int) :
    ∀ (fuel : Nat) (m : KeyRotationManager) (s i : Nat)
      (m' : KeyRotationManager),
      seq_scan m now s fuel = some (i, m') →
      (m.key_stats i).rate_limited_until ≤ now := by
  intro fuel
  induction fuel with
  | zero =>
    intro m s i m' h
    simp [seq_scan] at h
  | succ n ih =>
    intro m s i m' h
    simp only [seq_scan] at h
    by_cases ha : (is_key_available m now m.current_index).1 = true
    · rw [if_pos ha] at h
      simp only [Option.some.injEq, Prod.mk.injEq] at h
      obtain ⟨hi, _⟩ := h
      subst hi
      rw [is_key_available_fst] at ha
      exact avail_pure_rlu ha
    · rw [if_neg ha] at h
      have hfr := frame_seq_step now m s
      have hrec := ih (seq_step m now s) s i m' h
      rw [hfr.rlu_eq i] at hrec
      exact hrec

/-- If the sequential scan selects an idle key, the key's uses counter was
reset to 0 in the returned state. -/
theorem seq_scan_uses_reset (now : Int) :
    ∀ (fuel : Nat) (m : KeyRotationManager) (s i : Nat)
      (m' : KeyRotationManager),
      seq_scan m now s fuel = some (i, m') →
      now - (m.key_stats i).last_used > m.reset_window →
      (m'.key_stats i).uses = 0 := by
  intro fuel
  induction fuel with
  | zero =>
    intro m s i m' h
    simp [seq_scan] at h
  | succ n ih =>
    intro m s i m' h hidle
    simp only [seq_scan] at h
    by_cases ha : (is_key_available m now m.current_index).1 = true
    · rw [if_pos ha] at h
      simp only [Option.some.injEq, Prod.mk.injEq] at h
      obtain ⟨hi, hm'⟩ := h
      subst hi
      subst hm'
      have hb : (m.key_stats m.current_index).rate_limited_until ≤ now := by
        rw [is_key_available_fst] at ha
        exact avail_pure_rlu ha
      exact iav_self_uses_zero now m m.current_index hb hidle
    · rw [if_neg ha] at h
      have hfr := frame_seq_step now m s
      have hidle' : now - ((seq_step m now s).key_stats i).last_used >
          (seq_step m now s).reset_window := by
        rw [hfr.lu_eq i, hfr.rw_eq]
        exact hidle
      exact ih (seq_step m now s) s i m' h hidle'

/-- Same reset property for the round-robin scan. -/
theorem rr_scan_uses_reset (now : Int) :
    ∀ (fuel : Nat) (m : KeyRotationManager) (s cur i : Nat)
      (m' : KeyRotationManager),
      rr_scan m now s cur fuel = some (i, m') →
      now - (m.key_stats i).last_used > m.reset_window →
      (m'.key_stats i).uses = 0 := by
  intro fuel
  induction fuel with
  | zero =>
    intro m s cur i m' h
    simp [rr_scan] at h
  | succ n ih =>
    intro m s cur i m' h hidle
    simp only [rr_scan] at h
    by_cases ha : (is_key_available m now cur).1 = true
    · rw [if_pos ha] at h
      simp only [Option.some.injEq, Prod.mk.injEq] at h
      obtain ⟨hi, hm'⟩ := h
      subst hi
      subst hm'
      have hb : (m.key_stats cur).rate_limited_until ≤ now := by
        rw [is_key_available_fst] at ha
        exact avail_pure_rlu ha
      exact iav_self_uses_zero now m cur hb hidle
    · rw [if_neg ha] at h
      have hfr := frame_rr_step now m s cur
      have hidle' : now - (((rr_step m now s cur).1).key_stats i).last_used >
          ((rr_step m now s cur).1).reset_window := by
        rw [hfr.lu_eq i, hfr.rw_eq]
        exact hidle
      exact ih (rr_step m now s cur).1 s (rr_step m now s cur).2 i m' h hidle'

theorem frame_collect_go (now : Int) :
    ∀ (l : List Nat) (m : KeyRotationManager),
      FrameEq now m (collect_avail_go now l m).2 := by
  intro l
  induction l with
  | nil =>
    intro m
    exact frame_refl now m
  | cons a rest ih =>
    intro m
    simp only [collect_avail_go]
    exact frame_trans (frame_iav now m a) (ih (is_key_available m now a).2)

theorem collect_go_keeps (now : Int) :
    ∀ (l : List Nat) (m : KeyRotationManager) (i : Nat), i ∉ l →
      (collect_avail_go now l m).2.key_stats i = m.key_stats i := by
  intro l
  induction l with
  | nil =>
    intro m i _
    rfl
  | cons a rest ih =>
    intro m i hni
    have hne : i ≠ a := fun hEq => hni (hEq ▸ List.mem_cons_self a rest)
    have hnr : i ∉ rest := fun hr => hni (List.mem_cons_of_mem a hr)
    simp only [collect_avail_go]
    rw [ih (is_key_available m now a).2 i hnr]
    exact iav_stats_ne now m a i hne

theorem collect_go_uses_reset (now : Int) :
    ∀ (l : List Nat), l.Nodup →
      ∀ (m : KeyRotationManager) (i : Nat),
      i ∈ (collect_avail_go now l m).1 →
      now - (m.key_stats i).last_used > m.reset_window →
      ((collect_avail_go now l m).2.key_stats i).uses = 0 := by
  intro l
  induction l with
  | nil =>
    intro _ m i h
    simp [collect_avail_go] at h
  | cons a rest ih =>
    intro hnd m i hmem hidle
    have hfr := frame_iav now m a
    have hidle' : now -
        ((is_key_available m now a).2.key_stats i).last_used >
        (is_key_available m now a).2.reset_window := by
      rw [hfr.lu_eq i, hfr.rw_eq]
      exact hidle
    simp only [collect_avail_go] at hmem ⊢
    by_cases hc : (is_key_available m now a).1 = true
    · rw [if_pos hc] at hmem
      rcases List.mem_cons.mp hmem with hia | hir
      · subst hia
        have ha_notin : i ∉ rest := (List.nodup_cons.mp hnd).1
        rw [collect_go_keeps now rest _ i ha_notin]
        rw [is_key_available_fst] at hc
        exact iav_self_uses_zero now m i (avail_pure_rlu hc) hidle
      · exact ih (List.nodup_cons.mp hnd).2 (is_key_available m now a).2 i
          hir hidle'
    · rw [if_neg hc] at hmem
      exact ih (List.nodup_cons.mp hnd).2 (is_key_available m now a).2 i
        hmem hidle'

theorem argmin_uses_mem (m : KeyRotationManager) :
    ∀ (l : List Nat) (i : Nat), argmin_uses m l = some i → i ∈ l := by
  intro l
  induction l with
  | nil =>
    intro i h
    simp [argmin_uses] at h
  | cons a rest ih =>
    intro i h
    cases hr : argmin_uses m rest with
    | none =>
      simp only [argmin_uses, hr, Option.some.injEq] at h
      subst h
      exact List.mem_cons_self a rest
    | some j =>
      simp only [argmin_uses, hr] at h
      by_cases hlt : (m.key_stats j).uses < (m.key_stats a).uses
      · rw [if_pos hlt] at h
        simp only [Option.some.injEq] at h
        subst h
        exact List.mem_cons_of_mem a (ih _ hr)
      · rw [if_neg hlt] at h
        simp only [Option.some.injEq] at h
        subst h
        exact List.mem_cons_self a rest

theorem least_scan_uses_reset (now : Int) :
    ∀ (fuel : Nat) (m : KeyRotationManager) (i : Nat)
      (m' : KeyRotationManager),
      least_used_scan m now fuel = some (i, m') →
      now - (m.key_stats i).last_used > m.reset_window →
      (m'.key_stats i).uses = 0 := by
  intro fuel
  induction fuel with
  | zero =>
    intro m i m' h
    simp [least_used_scan] at h
  | succ n ih =>
    intro m i m' h hidle
    simp only [least_used_scan] at h
    cases hm : argmin_uses (collect_available m now).2
        (collect_available m now).1 with
    | some i0 =>
      rw [hm] at h
      simp only [Option.some.injEq, Prod.mk.injEq] at h
      obtain ⟨hi, hm'⟩ := h
      subst hi
      subst hm'
      unfold collect_available
      exact collect_go_uses_reset now (List.range m.numKeys)
        (List.nodup_range m.numKeys) m i0 (argmin_uses_mem _ _ i0 hm) hidle
    | none =>
      rw [hm] at h
      have hfr : FrameEq now m
          (handle_all_keys_busy (collect_available m now).2 now) :=
        frame_trans (frame_collect_go now (List.range m.numKeys) m)
          (frame_busy now (collect_available m now).2)
      have hidle' : now - ((handle_all_keys_busy (collect_available m now).2
          now).key_stats i).last_used >
          (handle_all_keys_busy (collect_available m now).2
          now).reset_window := by
        rw [hfr.lu_eq i, hfr.rw_eq]
        exact hidle
      exact ih _ i m' h hidle'

theorem frame_collect_smart (now : Int) :
    ∀ (l : List Nat) (m : KeyRotationManager),
      FrameEq now m (collect_smart_go now l m).2 := by
  intro l
  induction l with
  | nil =>
    intro m
    exact frame_refl now m
  | cons a rest ih =>
    intro m
    simp only [collect_smart_go]
    by_cases hg : now ≥ (m.key_stats a).rate_limited_until
    · rw [if_pos hg]
      exact frame_trans (frame_iav now m a) (ih (is_key_available m now a).2)
    · rw [if_neg hg]
      exact ih m

theorem collect_smart_keeps (now : Int) :
    ∀ (l : List Nat) (m : KeyRotationManager) (i : Nat), i ∉ l →
      (collect_smart_go now l m).2.key_stats i = m.key_stats i := by
  intro l
  induction l with
  | nil =>
    intro m i _
    rfl
  | cons a rest ih =>
    intro m i hni
    have hne : i ≠ a := fun hEq => hni (hEq ▸ List.mem_cons_self a rest)
    have hnr : i ∉ rest := fun hr => hni (List.mem_cons_of_mem a hr)
    simp only [collect_smart_go]
    by_cases hg : now ≥ (m.key_stats a).rate_limited_until
    · rw [if_pos hg]
      rw [ih (is_key_available m now a).2 i hnr]
      exact iav_stats_ne now m a i hne
    · rw [if_neg hg]
      exact ih m i hnr

theorem collect_smart_uses_reset (now : Int) :
    ∀ (l : List Nat), l.Nodup →
      ∀ (m : KeyRotationManager) (i : Nat),
      i ∈ (collect_smart_go now l m).1 →
      now - (m.key_stats i).last_used > m.reset_window →
      ((collect_smart_go now l m).2.key_stats i).uses = 0 := by
  intro l
  induction l with
  | nil =>
    intro _ m i h
    simp [collect_smart_go] at h
  | cons a rest ih =>
    intro hnd m i hmem hidle
    simp only [collect_smart_go] at hmem ⊢
    by_cases hg : now ≥ (m.key_stats a).rate_limited_until
    · rw [if_pos hg] at hmem ⊢
      have hfr := frame_iav now m a
      have hidle' : now -
          ((is_key_available m now a).2.key_stats i).last_used >
          (is_key_available m now a).2.reset_window := by
        rw [hfr.lu_eq i, hfr.rw_eq]
        exact hidle
      by_cases hc : (is_key_available m now a).1 = true
      · rw [if_pos hc] at hmem
        rcases List.mem_cons.mp hmem with hia | hir
        · subst hia
          have ha_notin : i ∉ rest := (List.nodup_cons.mp hnd).1
          rw [collect_smart_keeps now rest _ i ha_notin]
          rw [is_key_available_fst] at hc
          exact iav_self_uses_zero now m i (avail_pure_rlu hc) hidle
        · exact ih (List.nodup_cons.mp hnd).2 (is_key_available m now a).2 i
            hir hidle'
      · rw [if_neg hc] at hmem
        exact ih (List.nodup_cons.mp hnd).2 (is_key_available m now a).2 i
          hmem hidle'
    · rw [if_neg hg] at hmem ⊢
      exact ih (List.nodup_cons.mp hnd).2 m i hmem hidle

theorem argmin_smart_mem (m : KeyRotationManager) (now : Int) :
    ∀ (l : List Nat) (i : Nat), argmin_smart m now l = some i → i ∈ l := by
  intro l
  induction l with
  | nil =>
    intro i h
    simp [argmin_smart] at h
  | cons a rest ih =>
    intro i h
    cases hr : argmin_smart m now rest with
    | none =>
      simp only [argmin_smart, hr, Option.some.injEq] at h
      subst h
      exact List.mem_cons_self a rest
    | some j =>
      simp only [argmin_smart, hr] at h
      by_cases hlt : smart_lt m now j a = true
      · rw [if_pos hlt] at h
        simp only [Option.some.injEq] at h
        subst h
        exact List.mem_cons_of_mem a (ih _ hr)
      · rw [if_neg hlt] at h
        simp only [Option.some.injEq] at h
        subst h
        exact List.mem_cons_self a rest

theorem smart_scan_uses_reset (now : Int) :
    ∀ (fuel : Nat) (m : KeyRotationManager) (i : Nat)
      (m' : KeyRotationManager),
      smart_cooldown_scan m now fuel = some (i, m') →
      now - (m.key_stats i).last_used > m.reset_window →
      (m'.key_stats i).uses = 0 := by
  intro fuel
  induction fuel with
  | zero =>
    intro m i m' h
    simp [smart_cooldown_scan] at h
  | succ n ih =>
    intro m i m' h hidle
    simp only [smart_cooldown_scan] at h
    cases hm : argmin_smart (collect_smart_go now (List.range m.numKeys) m).2
        now (collect_smart_go now (List.range m.numKeys) m).1 with
    | some i0 =>
      rw [hm] at h
      simp only [Option.some.injEq, Prod.mk.injEq] at h
      obtain ⟨hi, hm'⟩ := h
      subst hi
      subst hm'
      exact collect_smart_uses_reset now (List.range m.numKeys)
        (List.nodup_range m.numKeys) m i0 (argmin_smart_mem _ now _ i0 hm)
        hidle
    | none =>
      rw [hm] at h
      have hfr : FrameEq now m (handle_all_keys_busy
          (collect_smart_go now (List.range m.numKeys) m).2 now) :=
        frame_trans (frame_collect_smart now (List.range m.numKeys) m)
          (frame_busy now _)
      have hidle' : now - ((handle_all_keys_busy
          (collect_smart_go now (List.range m.numKeys) m).2
          now).key_stats i).last_used > (handle_all_keys_busy
          (collect_smart_go now (List.range m.numKeys) m).2
          now).reset_window := by
        rw [hfr.lu_eq i, hfr.rw_eq]
        exact hidle
      exact ih _ i m' h hidle'

/-- Number of cursor steps (mod n) from `cur` to `j`: the measure that
decreases along a sequential scan. -/
def seq_dist (cur j n : Nat) : Nat :=
  if cur ≤ j then j - cur else n - cur + j

theorem seq_dist_lt (cur j n : Nat) (hc : cur < n) (hj : j < n) :
    seq_dist cur j n < n := by
  unfold seq_dist
  split <;> omega

theorem seq_dist_step (cur j n : Nat) (hc : cur < n) (hj : j < n)
    (hne : cur ≠ j) :
    seq_dist ((cur + 1) % n) j n + 1 = seq_dist cur j n := by
  by_cases h1 : cur + 1 = n
  · have hm : (cur + 1) % n = 0 := by
      rw [h1]
      exact Nat.mod_self n
    rw [hm]
    unfold seq_dist
    split <;> split <;> omega
  · have hm : (cur + 1) % n = cur + 1 := Nat.mod_eq_of_lt (by omega)
    rw [hm]
    unfold seq_dist
    split <;> split <;> omega

/-- Completeness of the sequential scan: if some key is available (in the
pure sense) at time `now`, the scan returns within
`seq_dist cursor j numKeys + 1` iterations. -/
theorem seq_scan_finds (now : Int) :
    ∀ (fuel : Nat) (m : KeyRotationManager) (s j : Nat),
      j < m.numKeys → m.current_index < m.numKeys →
      is_available_pure m now j = true →
      seq_dist m.current_index j m.numKeys < fuel →
      ∃ i m', seq_scan m now s fuel = some (i, m') := by
  intro fuel
  induction fuel with
  | zero =>
    intro m s j _ _ _ hd
    exact absurd hd (Nat.not_lt_zero _)
  | succ n ih =>
    intro m s j hj hcur hav hd
    by_cases ha : (is_key_available m now m.current_index).1 = true
    · refine ⟨m.current_index,
        { (is_key_available m now m.current_index).2 with
          current_index := (m.current_index + 1) % m.numKeys }, ?_⟩
      simp only [seq_scan]
      rw [if_pos ha]
    · have hne : m.current_index ≠ j := by
        intro hEq
        apply ha
        rw [is_key_available_fst, hEq]
        exact hav
      have hfr := frame_seq_step now m s
      have hN : (seq_step m now s).numKeys = m.numKeys := hfr.numKeys_eq
      have hNpos : 0 < m.numKeys := by omega
      have hcur' : (seq_step m now s).current_index <
          (seq_step m now s).numKeys := by
        rw [hN, seq_step_cur]
        exact Nat.mod_lt _ hNpos
      have hav' : is_available_pure (seq_step m now s) now j = true := by
        rw [hfr.avail_eq]
        exact hav
      have hj' : j < (seq_step m now s).numKeys := by
        rw [hN]
        exact hj
      have hd' : seq_dist (seq_step m now s).current_index j
          (seq_step m now s).numKeys < n := by
        rw [hN, seq_step_cur]
        have hstep := seq_dist_step m.current_index j m.numKeys hcur hj hne
        omega
      obtain ⟨i, m', hsc⟩ := ih (seq_step m now s) s j hj' hcur' hav' hd'
      refine ⟨i, m', ?_⟩
      simp only [seq_scan]
      rw [if_neg ha]
      exact hsc

theorem mark_rate_limited_in_range (m : KeyRotationManager) (now : Int)
    (idx : Nat) (hidx : idx < m.numKeys) :
    mark_rate_limited m now ↑idx = m.setStat idx
      { m.key_stats idx with
        failures := (m.key_stats idx).failures + 1,
        rate_limited_until := now + m.reset_window,
        uses := m.rate_limit } := by
  unfold mark_rate_limited
  rw [if_pos ⟨Int.natCast_nonneg idx, by exact_mod_cast hidx⟩]
  simp [Int.toNat_natCast]

/-- gemini-handler claim C5: after mark_rate_limited on an in-range index,
the key's stats show uses forced to the rate limit, failures incremented,
and a cooldown deadline strictly in the future; and under the sequential
strategy with another available credential, the next get_next_key call (at
the same instant) returns and picks a different index. -/
theorem claim5_rate_limited_key_is_skipped
    (m : KeyRotationManager) (now : Int) (idx : Nat)
    (hstrat : m.strategy = .sequential)
    (hidx : idx < m.numKeys)
    (hrw : 0 < m.reset_window)
    (hN : 2 ≤ m.numKeys)
    (hcur : m.current_index < m.numKeys)
    (j : Nat) (hj : j < m.numKeys) (hji : j ≠ idx)
    (havail : is_available_pure (mark_rate_limited m now ↑idx) now j
      = true) :
    ((mark_rate_limited m now ↑idx).key_stats idx).uses = m.rate_limit
    ∧ ((mark_rate_limited m now ↑idx).key_stats idx).failures
        = (m.key_stats idx).failures + 1
    ∧ ((mark_rate_limited m now ↑idx).key_stats idx).rate_limited_until
        = now + m.reset_window
    ∧ now < ((mark_rate_limited m now ↑idx).key_stats idx).rate_limited_until
    ∧ ∃ k i m', get_next_key (mark_rate_limited m now ↑idx) now m.numKeys
        = some ((k, i), m') ∧ i ≠ idx := by
  have hmark := mark_rate_limited_in_range m now idx hidx
  have hstats : (mark_rate_limited m now ↑idx).key_stats idx
      = { m.key_stats idx with
          failures := (m.key_stats idx).failures + 1,
          rate_limited_until := now + m.reset_window,
          uses := m.rate_limit } := by
    rw [hmark, setStat_key_stats, if_pos rfl]
  refine ⟨by rw [hstats], by rw [hstats], by rw [hstats],
    by rw [hstats]; dsimp only; omega, ?_⟩
  -- the next sequential selection cannot return idx
  have hm₁keys : (mark_rate_limited m now ↑idx).api_keys = m.api_keys := by
    rw [hmark]
    rfl
  have hm₁N : (mark_rate_limited m now ↑idx).numKeys = m.numKeys := by
    unfold KeyRotationManager.numKeys
    rw [hm₁keys]
  have hm₁strat : (mark_rate_limited m now ↑idx).strategy = .sequential := by
    rw [hmark]
    exact hstrat
  have hm₁cur : (mark_rate_limited m now ↑idx).current_index
      = m.current_index := by
    rw [hmark]
    rfl
  have hfind := seq_scan_finds now m.numKeys (mark_rate_limited m now ↑idx)
    (mark_rate_limited m now ↑idx).current_index j
    (by rw [hm₁N]; exact hj)
    (by rw [hm₁N, hm₁cur]; exact hcur)
    havail
    (by
      rw [hm₁N, hm₁cur]
      exact seq_dist_lt m.current_index j m.numKeys hcur hj)
  obtain ⟨i, m₂, hscan⟩ := hfind
  have hrlu := seq_scan_rlu_le now m.numKeys (mark_rate_limited m now ↑idx)
    (mark_rate_limited m now ↑idx).current_index i m₂ hscan
  have hine : i ≠ idx := by
    intro hEq
    rw [hEq, hstats] at hrlu
    dsimp only at hrlu
    omega
  refine ⟨(m₂.api_keys.getD i ""), i, m₂.setStat i
    { m₂.key_stats i with
      uses := (m₂.key_stats i).uses + 1, last_used := now }, ?_, hine⟩
  unfold get_next_key
  rw [hm₁strat]
  simp only []
  unfold get_sequential_key
  rw [hscan]

theorem claim5_witness :
    (KeyRotationManager.init ["k0", "k1"] .sequential 2 1).strategy
        = .sequential
    ∧ (0 : Nat) < (KeyRotationManager.init ["k0", "k1"] .sequential
        2 1).numKeys
    ∧ is_available_pure (mark_rate_limited
        (KeyRotationManager.init ["k0", "k1"] .sequential 2 1) 100 0) 100 1
        = true
    ∧ (((mark_rate_limited (KeyRotationManager.init ["k0", "k1"] .sequential
          2 1) 100 0).key_stats 0).uses = 2
      ∧ ((mark_rate_limited (KeyRotationManager.init ["k0", "k1"] .sequential
          2 1) 100 0).key_stats 0).failures
        = ((KeyRotationManager.init ["k0", "k1"] .sequential
          2 1).key_stats 0).failures + 1
      ∧ ((mark_rate_limited (KeyRotationManager.init ["k0", "k1"] .sequential
          2 1) 100 0).key_stats 0).rate_limited_until = 100 + 1
      ∧ (100 : Int) < ((mark_rate_limited (KeyRotationManager.init
          ["k0", "k1"] .sequential 2 1) 100 0).key_stats
          0).rate_limited_until
      ∧ ∃ k i m', get_next_key (mark_rate_limited (KeyRotationManager.init
          ["k0", "k1"] .sequential 2 1) 100 0) 100
          (KeyRotationManager.init ["k0", "k1"] .sequential 2 1).numKeys
          = some ((k, i), m') ∧ i ≠ 0) := by
  refine ⟨rfl, by decide, by decide, ?_⟩
  have h := claim5_rate_limited_key_is_skipped
    (KeyRotationManager.init ["k0", "k1"] .sequential 2 1) 100 0
    rfl (by decide) (by decide) (by decide) (by decide) 1 (by decide)
    (by decide) (by decide)
  exact_mod_cast h

/-- gemini-handler claim C6 support, dispatching on the four selection
strategies: whenever get_next_key selects a key that has been idle longer
than the reset window, the key's uses counter is 1 after the call (the
idle reset to 0 happened inside the availability check, then get_next_key
incremented it). -/
theorem claim6_idle_key_uses_become_one
    (m : KeyRotationManager) (now : Int) (fuel : Nat) (k : String) (i : Nat)
    (m' : KeyRotationManager)
    (hret : get_next_key m now fuel = some ((k, i), m'))
    (hused : 0 < (m.key_stats i).uses)
    (hcool : (m.key_stats i).rate_limited_until ≤ now)
    (hidle : now - (m.key_stats i).last_used > m.reset_window) :
    (m'.key_stats i).uses = 1 := by
  unfold get_next_key at hret
  have hreset : ∀ (i0 : Nat) (m₁ : KeyRotationManager),
      (match m.strategy with
        | .sequential => get_sequential_key m now fuel
        | .round_robin => get_round_robin_key m now fuel
        | .least_used => least_used_scan m now fuel
        | .smart_cooldown => smart_cooldown_scan m now fuel)
        = some (i0, m₁) → i0 = i → (m₁.key_stats i).uses = 0 := by
    intro i0 m₁ hscan hi0
    rw [hi0] at hscan
    cases hst : m.strategy with
    | sequential =>
      rw [hst] at hscan
      unfold get_sequential_key at hscan
      exact seq_scan_uses_reset now fuel m m.current_index i m₁ hscan hidle
    | round_robin =>
      rw [hst] at hscan
      unfold get_round_robin_key at hscan
      exact rr_scan_uses_reset now fuel (cycle_next m).2 (cycle_next m).1
        (cycle_next m).1 i m₁ hscan hidle
    | least_used =>
      rw [hst] at hscan
      exact least_scan_uses_reset now fuel m i m₁ hscan hidle
    | smart_cooldown =>
      rw [hst] at hscan
      exact smart_scan_uses_reset now fuel m i m₁ hscan hidle
  cases hscan : (match m.strategy with
      | .sequential => get_sequential_key m now fuel
      | .round_robin => get_round_robin_key m now fuel
      | .least_used => least_used_scan m now fuel
      | .smart_cooldown => smart_cooldown_scan m now fuel) with
  | none =>
    rw [hscan] at hret
    simp at hret
  | some p =>
    obtain ⟨i0, m₁⟩ := p
    rw [hscan] at hret
    simp only [Option.some.injEq, Prod.mk.injEq] at hret
    obtain ⟨⟨_, hi0⟩, hm'⟩ := hret
    have hz := hreset i0 m₁ hscan hi0
    subst hi0
    rw [← hm']
    rw [setStat_key_stats, if_pos rfl]
    dsimp only
    omega

/-- Concrete manager for the claim C6 witness: key 0 has been used 10
times, is not rate limited, and has been idle past the reset window. -/
def c6_mgr : KeyRotationManager :=
  { api_keys := ["k0", "k1", "k2"], strategy := .sequential,
    rate_limit := 60, reset_window := 1,
    key_stats := fun j => if j = 0 then
      { uses := 10, last_used := 0, failures := 0, rate_limited_until := 0 }
      else {},
    cycle_pos := 0, current_index := 0 }

theorem claim6_witness :
    0 < (c6_mgr.key_stats 0).uses
    ∧ (c6_mgr.key_stats 0).rate_limited_until ≤ 100
    ∧ 100 - (c6_mgr.key_stats 0).last_used > c6_mgr.reset_window
    ∧ ∃ k m', get_next_key c6_mgr 100 3 = some ((k, 0), m')
        ∧ (m'.key_stats 0).uses = 1 := by
  have hret : get_next_key c6_mgr 100 3
      = some (("k0", 0),
        ((get_next_key c6_mgr 100 3).getD (("", 0), c6_mgr)).2) := rfl
  refine ⟨by decide, by decide, by decide, "k0",
    ((get_next_key c6_mgr 100 3).getD (("", 0), c6_mgr)).2, hret, ?_⟩
  exact claim6_idle_key_uses_become_one c6_mgr 100 3 "k0" 0
    ((get_next_key c6_mgr 100 3).getD (("", 0), c6_mgr)).2 hret
    (by decide) (by decide) (by decide)

/-- Python dynamic errors that the translated code can raise. -/
inductive PyErr
  | typeError (msg : String)
  | attributeError (msg : String)
  | valueError (msg : String)
deriving Repr, DecidableEq

/-- The str(e) form of a raised error, as inspected by the handlers. -/
def PyErr.msg : PyErr → String
  | .typeError m => m
  | .attributeError m => m
  | .valueError m => m

def starts_with_seq : List Char → List Char → Bool
  | _, [] => true
  | [], _ :: _ => false
  | c :: cs, p :: ps => c == p && starts_with_seq cs ps

def has_infix_seq (pat : List Char) : List Char → Bool
  | [] => pat.isEmpty
  | c :: cs => starts_with_seq (c :: cs) pat || has_infix_seq pat cs

/-- The Python substring test `pat in s`. -/
def py_in (pat s : String) : Bool :=
  has_infix_seq pat.toList s.toList

/-- Lowercase an ASCII character. -/
def ascii_lower (c : Char) : Char :=
  if 65 ≤ c.toNat ∧ c.toNat ≤ 90 then Char.ofNat (c.toNat + 32) else c

/-- Python str.lower (all strings involved are ASCII). -/
def py_lower (s : String) : String :=
  ⟨s.data.map ascii_lower⟩

/-- data_models.py lines 63-76: the ModelResponse dataclass.  Structured
data and embeddings payloads are kept opaque (the raw JSON text, and an
integer vector).  Note there is no proxy_info field. -/
structure ModelResponse where
  success : Bool
  model : String
  text : String := ""
  error : String := ""
  time : Int := 0
  attempts : Nat := 1
  api_key_index : Nat := 0
  structured_data : Option String := none
  embeddings : Option (List Int) := none
  file_info : Option String := none
deriving Repr, DecidableEq

/-- The field names of the ModelResponse dataclass, exactly as declared in
data_models.py lines 63-76. -/
def modelResponseFields : List String :=
  ["success", "model", "text", "error", "time", "attempts", "api_key_index",
   "structured_data", "embeddings", "file_info"]

/-- Python semantics of a call ModelResponse(k1 = v1, ...): the generated
dataclass constructor raises TypeError when a supplied keyword is not a
declared field.  `r` is the record the call would produce if all keywords
were accepted, `kwargs` the keyword names the call site passes. -/
def dataclass_call (r : ModelResponse) (kwargs : List String) :
    Except PyErr ModelResponse :=
  match kwargs.filter (fun k => !(modelResponseFields.contains k)) with
  | [] => .ok r
  | k :: _ =>
    .error (.typeError
      ("ModelResponse.__init__ got an unexpected keyword argument " ++ k))

/-- Behaviour of the response.text accessor of the upstream library: it
either yields the string payload or raises the quick-accessor ValueError
when no valid content part exists. -/
inductive TextAccess
  | val (s : String)
  | raisesQuickAccessor
deriving Repr, DecidableEq

/-- A raw upstream response as inspected by response_handler.py: the
finish_reason of each candidate (none when the attribute is absent), the
text accessor behaviour, and the optional prompt_feedback.block_reason. -/
structure RawResponse where
  candidates : List (Option Int)
  text : TextAccess
  prompt_feedback : Option String := none
deriving Repr, DecidableEq

def quickAccessorMsg : String :=
  "The response.text quick accessor requires the response to contain a valid Part"

/-- The keyword names every ModelResponse construction site in
response_handler.py passes (they all include proxy_info). -/
def responseHandlerKwargs : List String :=
  ["success", "model", "error", "time", "api_key_index", "proxy_info"]

/-- response_handler.py lines 40-64: the branch taken when the candidates
list is nonempty but response.text is missing or empty. -/
def blocked_no_text (resp : RawResponse) (model_name : String)
    (elapsed : Int) (key_index : Nat) : Except PyErr ModelResponse :=
  match resp.prompt_feedback with
  | some reason =>
    dataclass_call
      { success := false, model := model_name,
        error := ("Blocked: Prompt blocked due to safety settings (Reason: "
          ++ reason ++ ")."),
        time := elapsed, api_key_index := key_index }
      responseHandlerKwargs
  | none =>
    dataclass_call
      { success := false, model := model_name,
        error :=
          "Blocked: No text content received and no specific block reason found.",
        time := elapsed, api_key_index := key_index }
      responseHandlerKwargs

/-- response_handler.py lines 67-89: the success construction followed by
the optional JSON decoding.  `json_ok` abstracts whether json.loads accepts
the text. -/
def success_path (resp : RawResponse) (model_name : String) (elapsed : Int)
    (key_index : Nat) (mime : String) (json_ok : String → Bool) :
    Except PyErr ModelResponse :=
  match resp.text with
  | .raisesQuickAccessor => .error (.valueError quickAccessorMsg)
  | .val t =>
    match dataclass_call
        { success := true, model := model_name, text := t,
          time := elapsed, api_key_index := key_index }
        ["success", "model", "text", "time", "api_key_index",
          "proxy_info"] with
    | .error e => .error e
    | .ok result =>
      if mime = "application/json" then
        if json_ok t then .ok { result with structured_data := some t }
        else .ok
          { result with
            success := false
            error := "Failed to parse JSON response" }
      else .ok result

/-- response_handler.py lines 39-64: the text-presence check run when the
candidates list is nonempty (hasattr evaluation of the raising text
property propagates the ValueError), falling through to the success path
when text is present and truthy. -/
def text_check_then_success (resp : RawResponse) (model_name : String)
    (elapsed : Int) (key_index : Nat) (mime : String)
    (json_ok : String → Bool) : Except PyErr ModelResponse :=
  match resp.text with
  | .raisesQuickAccessor => .error (.valueError quickAccessorMsg)
  | .val t =>
    if t = "" then blocked_no_text resp model_name elapsed key_index
    else success_path resp model_name elapsed key_index mime json_ok

/-- response_handler.py lines 23-89: the body of the try block of
process_response. -/
def process_response_try (resp : RawResponse) (model_name : String)
    (elapsed : Int) (key_index : Nat) (mime : String)
    (json_ok : String → Bool) : Except PyErr ModelResponse :=
  match resp.candidates with
  | [] => success_path resp model_name elapsed key_index mime json_ok
  | c0 :: _ =>
    match c0 with
    | some fr =>
      if fr = 4 then
        dataclass_call
          { success := false, model := model_name,
            error :=
              "Blocked: Response stopped due to safety settings (e.g., copyright, harm).",
            time := elapsed, api_key_index := key_index }
          responseHandlerKwargs
      else text_check_then_success resp model_name elapsed key_index mime
        json_ok
    | none =>
      text_check_then_success resp model_name elapsed key_index mime json_ok

/-- response_handler.py lines 13-109, ResponseHandler.process_response: the
try body plus the except handler, which converts the quick-accessor error
into a Blocked result and re-raises everything else. -/
def process_response (resp : RawResponse) (model_name : String)
    (elapsed : Int) (key_index : Nat) (mime : String)
    (json_ok : String → Bool) : Except PyErr ModelResponse :=
  match process_response_try resp model_name elapsed key_index mime
      json_ok with
  | .ok r => .ok r
  | .error e =>
    if py_in quickAccessorMsg e.msg then
      dataclass_call
        { success := false, model := model_name,
          error := ("Blocked: No valid response parts available (Safety/Block Reason: "
            ++ (match resp.prompt_feedback with
                | some r => r
                | none => "Unknown") ++ ")."),
          time := elapsed, api_key_index := key_index }
        responseHandlerKwargs
    else .error e

/-- The method names the KeyRotationManager class defines
(key_rotation.py lines 8-148).  There is no mark_failure method. -/
def keyRotationManagerMethods : List String :=
  ["__init__", "_is_key_available", "_get_sequential_key",
   "_get_round_robin_key", "_get_least_used_key", "_get_smart_cooldown_key",
   "_handle_all_keys_busy", "get_next_key", "mark_success",
   "mark_rate_limited"]

/-- Python semantics of the call self.key_manager.mark_failure(i) found in
strategies.py lines 88, 108, 112 and 116: attribute lookup on the
KeyRotationManager instance fails, raising AttributeError, because the
class defines no such method. -/
def call_mark_failure (km : KeyRotationManager) (_key_index : Nat) :
    Except PyErr KeyRotationManager :=
  if keyRotationManagerMethods.contains "mark_failure" then .ok km
  else .error (.attributeError
    "KeyRotationManager object has no attribute mark_failure")

/-- Outcome of the external model.generate_content call: a raw response,
or an exception whose str form is `msg`. -/
inductive ApiOutcome
  | resp (r : RawResponse)
  | raises (msg : String)
deriving Repr, DecidableEq

/-- strategies.py lines 92-127: the except handler of _try_generate.  It
classifies str(e), performs the key bookkeeping for the classified case,
and builds the terminal ModelResponse (passing proxy_info).  The proxy
reporting string is modelled as "None" (no proxy configured).  When the
model's state is dropped by a raised error, the preceding bookkeeping calls
have still run, exactly as in the source. -/
def classify_and_mark (km : KeyRotationManager) (now : Int) (key_index : Nat)
    (emsg : String) (model_name : String) (elapsed : Int) :
    Except PyErr (ModelResponse × KeyRotationManager) :=
  if py_in "429" emsg || py_in "rate limit" (py_lower emsg) then
    let km' := mark_rate_limited km now ↑key_index
    match dataclass_call
        { success := false, model := model_name,
          error := ("Rate limit exceeded (Key Index " ++ toString key_index
            ++ ", Proxy: None). Details: " ++ emsg),
          time := elapsed, api_key_index := key_index }
        responseHandlerKwargs with
    | .ok r => .ok (r, km')
    | .error e => .error e
  else if py_in "API key not valid" emsg ||
      py_in "permission denied" (py_lower emsg) ||
      py_in "authentication" (py_lower emsg) then
    match call_mark_failure km key_index with
    | .error e => .error e
    | .ok km' =>
      match dataclass_call
          { success := false, model := model_name,
            error := ("Authentication/Permission Error (Key Index "
              ++ toString key_index
              ++ ", Proxy: None). Check API key validity/permissions. Details: "
              ++ emsg),
            time := elapsed, api_key_index := key_index }
          responseHandlerKwargs with
      | .ok r => .ok (r, km')
      | .error e => .error e
  else if py_in "proxy" (py_lower emsg) ||
      py_in "connection" (py_lower emsg) ||
      py_in "timeout" (py_lower emsg) then
    match call_mark_failure km key_index with
    | .error e => .error e
    | .ok km' =>
      match dataclass_call
          { success := false, model := model_name,
            error := ("Connection/Proxy Error (Key Index "
              ++ toString key_index
              ++ ", Proxy: None). Details: " ++ emsg),
            time := elapsed, api_key_index := key_index }
          responseHandlerKwargs with
      | .ok r => .ok (r, km')
      | .error e => .error e
  else
    match call_mark_failure km key_index with
    | .error e => .error e
    | .ok km' =>
      match dataclass_call
          { success := false, model := model_name,
            error := ("Unhandled Exception (Key Index "
              ++ toString key_index
              ++ ", Proxy: None). Details: " ++ emsg),
            time := elapsed, api_key_index := key_index }
          responseHandlerKwargs with
      | .ok r => .ok (r, km')
      | .error e => .error e

/-- strategies.py lines 37-127, ContentStrategy._try_generate: draw a key,
run the external call (its outcome supplied as `outcome`), process the
response, and do the success / rate-limit / failure bookkeeping.  An error
raised inside the try body (including by process_response and by the
mark_failure attribute lookup at line 88) goes through the same except
handler.  `none` means get_next_key was still busy-looping after `fuel`
iterations. -/
def try_generate (km : KeyRotationManager) (now : Int) (fuel : Nat)
    (model_name : String) (elapsed : Int) (mime : String)
    (json_ok : String → Bool) (outcome : ApiOutcome) :
    Option (Except PyErr (ModelResponse × KeyRotationManager)) :=
  match get_next_key km now fuel with
  | none => none
  | some ((_api_key, key_index), km₁) =>
    some (
      match outcome with
      | .raises emsg =>
        classify_and_mark km₁ now key_index emsg model_name elapsed
      | .resp r =>
        match process_response r model_name elapsed key_index mime
            json_ok with
        | .ok result =>
          if result.success then .ok (result, mark_success km₁ ↑key_index)
          else if py_in "Rate limit" result.error ||
              py_in "429" result.error then
            .ok (result, km₁)
          else
            match call_mark_failure km₁ key_index with
            | .ok km₂ => .ok (result, km₂)
            | .error e =>
              classify_and_mark km₁ now key_index e.msg model_name elapsed
        | .error e =>
          classify_and_mark km₁ now key_index e.msg model_name elapsed)

/-- Trace of one strategy generate call: the returned value (`none` when a
key scan was still busy-looping, `some (.error e)` when the call raised e),
the model names attempted in order, and how many inter-attempt sleeps were
performed. -/
structure GenRun where
  result : Option (Except PyErr ModelResponse)
  attempted : List String
  sleeps : Nat
deriving Repr

/-- strategies.py lines 181-197: the terminal branch of
RoundRobinStrategy.generate after the loop, mutating the first failing
result when there is one. -/
def rr_gen_finish (first_fail : Option ModelResponse) (last_error : String)
    (elapsed : Int) (attempted : List String) : GenRun :=
  match first_fail with
  | some f =>
    { result := some (.ok
        { f with
          model := "all_models_failed"
          error := ("All models failed. First error (" ++ f.model ++ "): "
            ++ f.error) }),
      attempted := attempted, sleeps := 0 }
  | none =>
    { result := some (.ok
        { success := false, model := "all_models_failed",
          error := ("All models failed. Last error: " ++ last_error),
          time := elapsed }),
      attempted := attempted, sleeps := 0 }

/-- strategies.py lines 161-178: the attempt loop of
RoundRobinStrategy.generate.  `i` is the loop counter, `cur` the strategy's
model cursor, `initial` the cursor value captured before the loop,
`outcomes` the per-attempt external call outcomes. -/
def rr_gen_loop (models : List String) (now : Int) (fuel : Nat)
    (mime : String) (json_ok : String → Bool) (outcomes : Nat → ApiOutcome)
    (elapsed : Int) (initial : Nat) :
    Nat → Nat → Nat → KeyRotationManager → Option ModelResponse → String →
      List String → GenRun
  | _, _, 0, _, ff, le, acc => rr_gen_finish ff le elapsed acc
  | i, cur, r + 1, km, ff, le, acc =>
    let model_name := models.getD cur ""
    let cur' := (cur + 1) % models.length
    match try_generate km now fuel model_name elapsed mime json_ok
        (outcomes i) with
    | none =>
      { result := none, attempted := acc ++ [model_name], sleeps := 0 }
    | some (.error e) =>
      { result := some (.error e), attempted := acc ++ [model_name],
        sleeps := 0 }
    | some (.ok (res, km')) =>
      if res.success || py_in "Copyright" res.error then
        { result := some (.ok res), attempted := acc ++ [model_name],
          sleeps := 0 }
      else
        let ff' := match ff with
          | none => some res
          | some f => some f
        if 0 < i ∧ cur' = initial then
          rr_gen_finish ff' res.error elapsed (acc ++ [model_name])
        else
          rr_gen_loop models now fuel mime json_ok outcomes elapsed initial
            (i + 1) cur' r km' ff' res.error (acc ++ [model_name])

/-- strategies.py lines 146-197, RoundRobinStrategy.generate (the caller
supplied model name is ignored); `cur0` is the strategy's _current_index
before the call. -/
def round_robin_generate (models : List String) (cur0 : Nat)
    (km : KeyRotationManager) (now : Int) (fuel : Nat) (mime : String)
    (json_ok : String → Bool) (outcomes : Nat → ApiOutcome)
    (elapsed : Int) : GenRun :=
  if models.isEmpty then
    { result := some (.ok
        { success := false, model := "no_models_configured",
          error := "No models available in configuration for RoundRobinStrategy.",
          time := elapsed }),
      attempted := [], sleeps := 0 }
  else
    rr_gen_loop models now fuel mime json_ok outcomes elapsed cur0 0 cur0
      models.length km none "No models attempted." []

/-- strategies.py lines 230-242: the terminal branch of
FallbackStrategy.generate. -/
def fb_gen_finish (start_model : String) (first_fail : Option ModelResponse)
    (last_error : String) (elapsed : Int) (attempted : List String) :
    GenRun :=
  match first_fail with
  | some f =>
    { result := some (.ok
        { f with
          model := "all_models_failed"
          error := ("All models failed starting from " ++ start_model
            ++ ". First error (" ++ f.model ++ "): " ++ f.error) }),
      attempted := attempted, sleeps := 0 }
  | none =>
    { result := some (.ok
        { success := false, model := "all_models_failed",
          error := ("All models failed starting from " ++ start_model
            ++ ". Last error: " ++ last_error), time := elapsed }),
      attempted := attempted, sleeps := 0 }

/-- strategies.py lines 217-229: the attempt loop of
FallbackStrategy.generate over the model list tail. -/
def fb_gen_loop (now : Int) (fuel : Nat) (mime : String)
    (json_ok : String → Bool) (outcomes : Nat → ApiOutcome) (elapsed : Int)
    (start_model : String) :
    List String → Nat → KeyRotationManager → Option ModelResponse →
      String → List String → GenRun
  | [], _, _, ff, le, acc => fb_gen_finish start_model ff le elapsed acc
  | mn :: rest, i, km, ff, le, acc =>
    match try_generate km now fuel mn elapsed mime json_ok (outcomes i) with
    | none => { result := none, attempted := acc ++ [mn], sleeps := 0 }
    | some (.error e) =>
      { result := some (.error e), attempted := acc ++ [mn], sleeps := 0 }
    | some (.ok (res, km')) =>
      if res.success || py_in "Copyright" res.error then
        { result := some (.ok res), attempted := acc ++ [mn], sleeps := 0 }
      else
        fb_gen_loop now fuel mime json_ok outcomes elapsed start_model rest
          (i + 1) km'
          (match ff with
            | none => some res
            | some f => some f) res.error (acc ++ [mn])

/-- strategies.py lines 202-242, FallbackStrategy.generate: find the start
model's position (falling back to the first configured model when absent),
then walk the list tail. -/
def fallback_generate (models : List String) (start_model : String)
    (km : KeyRotationManager) (now : Int) (fuel : Nat) (mime : String)
    (json_ok : String → Bool) (outcomes : Nat → ApiOutcome)
    (elapsed : Int) : GenRun :=
  match models.findIdx? (fun s => s == start_model) with
  | some ix =>
    fb_gen_loop now fuel mime json_ok outcomes elapsed start_model
      (models.drop ix) 0 km none "No models attempted." []
  | none =>
    if models.isEmpty then
      { result := some (.ok
          { success := false, model := start_model,
            error := "No models configured.", time := elapsed }),
        attempted := [], sleeps := 0 }
    else
      fb_gen_loop now fuel mime json_ok outcomes elapsed (models.getD 0 "")
        models 0 km none "No models attempted." []

/-- strategies.py lines 267-300: the attempt loop of
RetryStrategy.generate; sleeps are counted instead of performed. -/
def retry_gen_loop (mn : String) (now : Int) (fuel : Nat) (mime : String)
    (json_ok : String → Bool) (outcomes : Nat → ApiOutcome) (elapsed : Int)
    (max_retries : Nat) :
    Nat → Nat → KeyRotationManager → Option ModelResponse → Nat →
      List String → GenRun
  | _, 0, _, last, sleeps, acc =>
    (match last with
      | some lr =>
        { result := some (.ok
            { lr with
              success := false
              error := ("Max retries (" ++ toString max_retries
                ++ ") exceeded for model " ++ mn ++ ". Last error: "
                ++ lr.error) }),
          attempted := acc, sleeps := sleeps }
      | none =>
        { result := some (.ok
            { success := false, model := mn,
              error := ("Max retries (" ++ toString max_retries
                ++ ") exceeded for model " ++ mn
                ++ " (no attempts recorded)."),
              time := elapsed, attempts := max_retries }),
          attempted := acc, sleeps := sleeps })
  | attempt, r + 1, km, _, sleeps, acc =>
    match try_generate km now fuel mn elapsed mime json_ok
        (outcomes attempt) with
    | none => { result := none, attempted := acc ++ [mn], sleeps := sleeps }
    | some (.error e) =>
      { result := some (.error e), attempted := acc ++ [mn],
        sleeps := sleeps }
    | some (.ok (res, km')) =>
      let res' := { res with attempts := attempt + 1 }
      if res'.success || py_in "Copyright" res'.error ||
          py_in "Authentication/Permission Error" res'.error then
        { result := some (.ok res'), attempted := acc ++ [mn],
          sleeps := sleeps }
      else if attempt < max_retries - 1 then
        retry_gen_loop mn now fuel mime json_ok outcomes elapsed max_retries
          (attempt + 1) r km' (some res') (sleeps + 1) (acc ++ [mn])
      else
        retry_gen_loop mn now fuel mime json_ok outcomes elapsed max_retries
          (attempt + 1) r km' (some res') sleeps (acc ++ [mn])

/-- strategies.py lines 247-300, RetryStrategy.generate: substitute the
configured default model when the requested one is absent, then retry. -/
def retry_generate (models : List String) (default_model : String)
    (max_retries : Nat) (model_name : String) (km : KeyRotationManager)
    (now : Int) (fuel : Nat) (mime : String) (json_ok : String → Bool)
    (outcomes : Nat → ApiOutcome) (elapsed : Int) : GenRun :=
  if models.contains model_name then
    retry_gen_loop model_name now fuel mime json_ok outcomes elapsed
      max_retries 0 max_retries km none 0 []
  else if models.contains default_model then
    retry_gen_loop default_model now fuel mime json_ok outcomes elapsed
      max_retries 0 max_retries km none 0 []
  else
    { result := some (.ok
        { success := false, model := model_name,
          error := ("Model " ++ model_name
            ++ " not found in configuration, and default model "
            ++ default_model ++ " is also missing."),
          time := elapsed, attempts := 0 }),
      attempted := [], sleeps := 0 }

/-- data_models.py lines 78-109: the configured model list of
ModelConfig. -/
def model_config_models : List String :=
  ["gemini-2.0-flash", "gemini-2.5-pro-exp-03-25", "gemini-2.0-flash-lite",
   "gemini-2.0-pro-exp-02-05", "gemini-1.5-flash", "gemini-1.5-flash-8b",
   "gemini-1.5-pro", "gemini-embedding-exp-03-07",
   "imagen-3.0-generate-002", "gemini-2.0-flash-thinking-exp-01-21",
   "gemini-exp-1206", "gemini-pro-vision", "gemini-1.5-flash-001-tuning",
   "gemini-1.5-flash-8b-exp-0827", "gemini-1.5-flash-8b-exp-0924",
   "gemini-2.0-flash-exp", "gemini-2.0-flash-exp-image-generation",
   "gemini-2.0-flash-lite-preview-02-05", "gemini-2.0-flash-lite-preview",
   "gemini-2.0-pro-exp", "gemini-2.0-flash-thinking-exp",
   "gemini-2.0-flash-thinking-exp-1219", "gemini-embedding-exp"]

/-- data_models.py line 108: default_model = models[0]. -/
def model_config_default_model : String :=
  "gemini-2.0-flash"

/-- gemini_handler.py lines 26-114, GeminiHandler.generate_content with the
default construction (round-robin content strategy over ModelConfig's
models, round-robin key strategy, rate limit 60, reset window 60).  The
strategy's ModelResponse (or the exception it raises) is what the facade
hands back: generate_content itself installs no exception handler. -/
def facade_generate_content (api_keys : List String) (now : Int)
    (elapsed : Int) (json_ok : String → Bool)
    (outcomes : Nat → ApiOutcome) : GenRun :=
  round_robin_generate model_config_models 0
    (KeyRotationManager.init api_keys .round_robin 60 60) now
    api_keys.length "text/plain" json_ok outcomes elapsed

/-- A raw upstream response whose first candidate carries finish_reason 4
(the safety / copyright block code checked in response_handler.py line
30). -/
def blocked_raw : RawResponse :=
  { candidates := [some 4], text := .val "", prompt_feedback := none }

/-- gemini-handler claim C1 (code evaluation): the Facade raises for the
expected failure modes instead of returning a failure result.  With a
single key, an upstream connection-error exception makes generate_content
raise AttributeError (strategies.py line 112 calls the nonexistent
KeyRotationManager.mark_failure), and an upstream 429 exception makes it
raise TypeError (strategies.py line 120 passes proxy_info to ModelResponse,
which has no such field). -/
theorem claim1_facade_raises_on_expected_failures :
    (facade_generate_content ["k0"] 1000 1 (fun _ => false)
        (fun _ => .raises "Connection timeout while contacting the endpoint")).result
      = some (.error (.attributeError
          "KeyRotationManager object has no attribute mark_failure"))
    ∧ (facade_generate_content ["k0"] 1000 1 (fun _ => false)
        (fun _ => .raises "429 Resource has been exhausted")).result
      = some (.error (.typeError
          "ModelResponse.__init__ got an unexpected keyword argument proxy_info")) :=
  ⟨by rfl, by rfl⟩

/-- gemini-handler claim C2 (code evaluation): a response whose first
candidate has finish_reason 4 does not make RoundRobinStrategy.generate
return the blocked result.  process_response raises TypeError while
building the blocked ModelResponse (unexpected proxy_info keyword), the
handler then calls the nonexistent mark_failure and generate raises
AttributeError after the first attempt.  blocked_raw is the raw response
whose first candidate has finish_reason 4.  The last conjunct records that the
short-circuit test of strategies.py line 167 can never match the blocked
message anyway: the test looks for capital-C "Copyright" while the message
contains lowercase "copyright". -/
theorem claim2_safety_block_not_returned :
    process_response blocked_raw "model-a" 1 0 "text/plain" (fun _ => false)
      = .error (.typeError
          "ModelResponse.__init__ got an unexpected keyword argument proxy_info")
    ∧ (round_robin_generate ["model-a", "model-b"] 0
        (KeyRotationManager.init ["k0"] .round_robin 60 60) 1000 1
        "text/plain" (fun _ => false) (fun _ => .resp blocked_raw) 1).result
      = some (.error (.attributeError
          "KeyRotationManager object has no attribute mark_failure"))
    ∧ (round_robin_generate ["model-a", "model-b"] 0
        (KeyRotationManager.init ["k0"] .round_robin 60 60) 1000 1
        "text/plain" (fun _ => false) (fun _ => .resp blocked_raw) 1).attempted
      = ["model-a"]
    ∧ py_in "Copyright"
        "Blocked: Response stopped due to safety settings (e.g., copyright, harm)."
      = false :=
  ⟨by rfl, by rfl, by rfl, by rfl⟩

/-- gemini-handler claim C3 (code evaluation): the credential pool exposes
no reportFailure operation at all — KeyRotationManager defines only the
methods listed in keyRotationManagerMethods — so an attempt that fails with
a generic retryable error raises AttributeError out of _try_generate
instead of performing failure bookkeeping. -/
theorem claim3_report_failure_missing :
    keyRotationManagerMethods.contains "mark_failure" = false
    ∧ try_generate (KeyRotationManager.init ["k0"] .round_robin 60 60) 1000 1
        "gemini-2.0-flash" 1 "text/plain" (fun _ => false)
        (.raises "Internal server error at upstream")
      = some (.error (.attributeError
          "KeyRotationManager object has no attribute mark_failure")) :=
  ⟨by rfl, by rfl⟩

/-- gemini-handler claim C7 (code evaluation): RetryStrategy with
max_retries 3 and every upstream call failing with a connection error does
not perform 3 attempts with 2 delays; the first attempt raises
AttributeError (nonexistent mark_failure) and generate propagates it, so
exactly one attempt occurs, no delay is applied, and no terminal result
object is produced. -/
theorem claim7_retry_crashes_on_first_attempt :
    (retry_generate model_config_models model_config_default_model 3
        "gemini-2.0-flash" (KeyRotationManager.init ["k0"] .round_robin 60 60)
        1000 1 "text/plain" (fun _ => false)
        (fun _ => .raises "Connection reset by peer") 1).result
      = some (.error (.attributeError
          "KeyRotationManager object has no attribute mark_failure"))
    ∧ (retry_generate model_config_models model_config_default_model 3
        "gemini-2.0-flash" (KeyRotationManager.init ["k0"] .round_robin 60 60)
        1000 1 "text/plain" (fun _ => false)
        (fun _ => .raises "Connection reset by peer") 1).attempted
      = ["gemini-2.0-flash"]
    ∧ (retry_generate model_config_models model_config_default_model 3
        "gemini-2.0-flash" (KeyRotationManager.init ["k0"] .round_robin 60 60)
        1000 1 "text/plain" (fun _ => false)
        (fun _ => .raises "Connection reset by peer") 1).sleeps = 0 :=
  ⟨by rfl, by rfl, by rfl⟩

/-- gemini-handler claim C8 (code evaluation): FallbackStrategy with models
a, b, c and start model b attempts only b — the attempt raises
AttributeError (nonexistent mark_failure) and c is never reached; with an
unknown start model the strategy does fall back to the first configured
model a, but likewise crashes after that single attempt. -/
theorem claim8_fallback_crashes_after_first_attempt :
    (fallback_generate ["a", "b", "c"] "b"
        (KeyRotationManager.init ["k0"] .round_robin 60 60) 1000 1
        "text/plain" (fun _ => false)
        (fun _ => .raises "Connection reset by peer") 1).attempted = ["b"]
    ∧ (fallback_generate ["a", "b", "c"] "b"
        (KeyRotationManager.init ["k0"] .round_robin 60 60) 1000 1
        "text/plain" (fun _ => false)
        (fun _ => .raises "Connection reset by peer") 1).result
      = some (.error (.attributeError
          "KeyRotationManager object has no attribute mark_failure"))
    ∧ (fallback_generate ["a", "b", "c"] "zz"
        (KeyRotationManager.init ["k0"] .round_robin 60 60) 1000 1
        "text/plain" (fun _ => false)
        (fun _ => .raises "Connection reset by peer") 1).attempted
      = ["a"] :=
  ⟨by rfl, by rfl, by rfl⟩

/-- v2/test/gemini_gateway.py: a proxy descriptor (swiftshadow Proxy). -/
structure ProxyDesc where
  ip : String
  port : Nat
  protocol : String
deriving Repr, DecidableEq

/-- The identity string ip:port used for blacklist membership and
whitelist deduplication. -/
def proxy_id (p : ProxyDesc) : String :=
  p.ip ++ ":" ++ toString p.port

/-- Outcome of one health probe: an HTTP response with a status code, or a
network-level error (timeout, proxy error, connect error, ...). -/
inductive ProbeOutcome
  | status (code : Nat)
  | netError
deriving Repr, DecidableEq

/-- gemini_gateway.py line 118: the probe counts as healthy exactly when
the status code is 200. -/
def probe_ok : ProbeOutcome → Bool
  | .status code => code == 200
  | .netError => false

/-- The gateway's shared proxy state: the whitelist of currently healthy
descriptors and the recently-failed id set. -/
structure GatewayState where
  whitelist : List ProxyDesc
  recently_failed : List String
deriving Repr, DecidableEq

/-- Add an id to the recently-failed set (set semantics: no duplicate). -/
def add_failed (st : GatewayState) (pid : String) : GatewayState :=
  if pid ∈ st.recently_failed then st
  else { st with recently_failed := st.recently_failed ++ [pid] }

/-- gemini_gateway.py lines 100-132, check_proxy_health: skip a descriptor
already known bad; otherwise return it when the probe is healthy, and on
any failure add it to the recently-failed set and return nothing. -/
def check_proxy_health (st : GatewayState) (p : ProxyDesc)
    (outcome : ProbeOutcome) : Option ProxyDesc × GatewayState :=
  if proxy_id p ∈ st.recently_failed then (none, st)
  else if probe_ok outcome then (some p, st)
  else (none, add_failed st (proxy_id p))

/-- Run health checks over a list of descriptors in order, threading the
state, collecting the descriptors that passed (the bounded-concurrency
gather of the harvester, abstracted as a sequential fold). -/
def run_checks (outcome : ProxyDesc → ProbeOutcome) :
    List ProxyDesc → GatewayState → List ProxyDesc × GatewayState
  | [], st => ([], st)
  | p :: rest, st =>
    let c := check_proxy_health st p (outcome p)
    let r := run_checks outcome rest c.2
    (match c.1 with
      | some q => q :: r.1
      | none => r.1, r.2)

/-- gemini_gateway.py lines 149-152: the new proxies to check are the raw
descriptors whose id is neither whitelisted nor recently failed. -/
def new_candidates (st : GatewayState) (raw : List ProxyDesc) :
    List ProxyDesc :=
  raw.filter (fun p =>
    !(decide (proxy_id p ∈ st.whitelist.map proxy_id)) &&
    !(decide (proxy_id p ∈ st.recently_failed)))

/-- gemini_gateway.py lines 168-173: append newly passed descriptors to
the whitelist, skipping any whose ip and port are already present. -/
def whitelist_append (wl : List ProxyDesc) : List ProxyDesc →
    List ProxyDesc
  | [] => wl
  | p :: rest =>
    if wl.any (fun wp => wp.ip == p.ip && wp.port == p.port) then
      whitelist_append wl rest
    else whitelist_append (wl ++ [p]) rest

/-- gemini_gateway.py lines 138-195: one cycle of the harvester before the
periodic blacklist clearing — health-check the new candidates and extend
the whitelist with the ones that passed; then, when the periodic recheck is
due, re-probe the whole whitelist and keep exactly the descriptors that
passed. -/
def harvest_phases (st : GatewayState) (raw : List ProxyDesc)
    (outcome : ProxyDesc → ProbeOutcome) (recheck_due : Bool) :
    GatewayState :=
  let r1 := run_checks outcome (new_candidates st raw) st
  let st1 : GatewayState :=
    { whitelist := whitelist_append st.whitelist r1.1,
      recently_failed := r1.2.recently_failed }
  if recheck_due then
    let r2 := run_checks outcome st1.whitelist st1
    { whitelist := r2.1, recently_failed := r2.2.recently_failed }
  else st1

/-- gemini_gateway.py lines 197-199: the full harvester cycle, including
the clearing of the recently-failed set once it outgrows twice the
configured proxy count. -/
def harvester_cycle (st : GatewayState) (raw : List ProxyDesc)
    (outcome : ProxyDesc → ProbeOutcome) (recheck_due : Bool)
    (max_proxies : Nat) : GatewayState :=
  let st' := harvest_phases st raw outcome recheck_due
  if st'.recently_failed.length > max_proxies * 2 then
    { st' with recently_failed := [] }
  else st'

/-- gemini_gateway.py lines 218-240, get_whitelisted_proxy:
random.choice over the whitelist when it is nonempty (the uniform draw is
modelled by an explicit seed `r`: a seed uniform on any range whose size is
a multiple of the whitelist length induces the uniform choice
whitelist[r mod length]); with health checks disabled and an empty
whitelist the swiftshadow rotation is consulted instead. -/
def get_whitelisted_proxy (st : GatewayState) (hc_enabled : Bool)
    (swift : List ProxyDesc) (r : Nat) : Option ProxyDesc :=
  if st.whitelist.isEmpty then
    (if !hc_enabled && !swift.isEmpty then swift.head? else none)
  else st.whitelist[r % st.whitelist.length]?

theorem add_failed_mono {st : GatewayState} {pid : String} (q : String)
    (h : pid ∈ st.recently_failed) :
    pid ∈ (add_failed st q).recently_failed := by
  unfold add_failed
  by_cases hc : q ∈ st.recently_failed
  · rw [if_pos hc]
    exact h
  · rw [if_neg hc]
    exact List.mem_append_left _ h

theorem check_state_cases (st : GatewayState) (p : ProxyDesc)
    (o : ProbeOutcome) :
    (check_proxy_health st p o).2 = st ∨
    (check_proxy_health st p o).2 = add_failed st (proxy_id p) := by
  unfold check_proxy_health
  by_cases h1 : proxy_id p ∈ st.recently_failed
  · rw [if_pos h1]
    exact Or.inl rfl
  · rw [if_neg h1]
    by_cases h2 : probe_ok o = true
    · rw [if_pos h2]
      exact Or.inl rfl
    · rw [if_neg h2]
      exact Or.inr rfl

theorem check_failed_mono {st : GatewayState} {pid : String}
    (p : ProxyDesc) (o : ProbeOutcome) (h : pid ∈ st.recently_failed) :
    pid ∈ (check_proxy_health st p o).2.recently_failed := by
  rcases check_state_cases st p o with hc | hc
  · rw [hc]
    exact h
  · rw [hc]
    exact add_failed_mono _ h

theorem check_some_sub {st : GatewayState} {p q : ProxyDesc}
    {o : ProbeOutcome} (h : (check_proxy_health st p o).1 = some q) :
    q = p ∧ probe_ok o = true := by
  unfold check_proxy_health at h
  by_cases h1 : proxy_id p ∈ st.recently_failed
  · rw [if_pos h1] at h
    simp at h
  · rw [if_neg h1] at h
    by_cases h2 : probe_ok o = true
    · rw [if_pos h2] at h
      simp only [Option.some.injEq] at h
      exact ⟨h.symm, h2⟩
    · rw [if_neg h2] at h
      simp at h

theorem run_checks_failed_mono (outcome : ProxyDesc → ProbeOutcome) :
    ∀ (l : List ProxyDesc) (st : GatewayState) (pid : String),
      pid ∈ st.recently_failed →
      pid ∈ (run_checks outcome l st).2.recently_failed := by
  intro l
  induction l with
  | nil =>
    intro st pid h
    exact h
  | cons p rest ih =>
    intro st pid h
    simp only [run_checks]
    exact ih (check_proxy_health st p (outcome p)).2 pid
      (check_failed_mono p (outcome p) h)

theorem run_checks_adds_failed (outcome : ProxyDesc → ProbeOutcome) :
    ∀ (l : List ProxyDesc) (st : GatewayState) (p : ProxyDesc),
      p ∈ l → probe_ok (outcome p) = false →
      proxy_id p ∈ (run_checks outcome l st).2.recently_failed := by
  intro l
  induction l with
  | nil =>
    intro st p h
    exact absurd h (List.not_mem_nil p)
  | cons a rest ih =>
    intro st p hmem hfail
    simp only [run_checks]
    rcases List.mem_cons.mp hmem with hpa | hpr
    · subst hpa
      apply run_checks_failed_mono
      unfold check_proxy_health
      by_cases h1 : proxy_id p ∈ st.recently_failed
      · rw [if_pos h1]
        exact h1
      · rw [if_neg h1]
        rw [hfail]
        simp only [Bool.false_eq_true, if_false]
        unfold add_failed
        rw [if_neg h1]
        exact List.mem_append_right _ (List.mem_singleton_self _)
    · exact ih (check_proxy_health st a (outcome a)).2 p hpr hfail

theorem run_checks_passed_sub (outcome : ProxyDesc → ProbeOutcome) :
    ∀ (l : List ProxyDesc) (st : GatewayState) (q : ProxyDesc),
      q ∈ (run_checks outcome l st).1 →
      q ∈ l ∧ probe_ok (outcome q) = true := by
  intro l
  induction l with
  | nil =>
    intro st q h
    exact absurd h (List.not_mem_nil q)
  | cons a rest ih =>
    intro st q hmem
    simp only [run_checks] at hmem
    cases hc : (check_proxy_health st a (outcome a)).1 with
    | some q' =>
      rw [hc] at hmem
      simp only [] at hmem
      rcases List.mem_cons.mp hmem with hqa | hqr
      · obtain ⟨hq'a, hok⟩ := check_some_sub hc
        subst hqa
        rw [hq'a]
        exact ⟨List.mem_cons_self a rest, hq'a ▸ hok⟩
      · obtain ⟨hin, hok⟩ :=
          ih (check_proxy_health st a (outcome a)).2 q hqr
        exact ⟨List.mem_cons_of_mem a hin, hok⟩
    | none =>
      rw [hc] at hmem
      simp only [] at hmem
      obtain ⟨hin, hok⟩ := ih (check_proxy_health st a (outcome a)).2 q hmem
      exact ⟨List.mem_cons_of_mem a hin, hok⟩

theorem whitelist_append_sub :
    ∀ (new wl : List ProxyDesc) (q : ProxyDesc),
      q ∈ whitelist_append wl new → q ∈ wl ∨ q ∈ new := by
  intro new
  induction new with
  | nil =>
    intro wl q h
    exact Or.inl h
  | cons p rest ih =>
    intro wl q h
    simp only [whitelist_append] at h
    by_cases hc : wl.any (fun wp => wp.ip == p.ip && wp.port == p.port)
      = true
    · rw [if_pos hc] at h
      rcases ih wl q h with h1 | h1
      · exact Or.inl h1
      · exact Or.inr (List.mem_cons_of_mem p h1)
    · rw [if_neg hc] at h
      rcases ih (wl ++ [p]) q h with h1 | h1
      · rcases List.mem_append.mp h1 with h2 | h2
        · exact Or.inl h2
        · rcases List.mem_singleton.mp h2 with h3
          exact Or.inr (h3 ▸ List.mem_cons_self p rest)
      · exact Or.inr (List.mem_cons_of_mem p h1)

theorem whitelist_append_left :
    ∀ (new wl : List ProxyDesc) (q : ProxyDesc),
      q ∈ wl → q ∈ whitelist_append wl new := by
  intro new
  induction new with
  | nil =>
    intro wl q h
    exact h
  | cons p rest ih =>
    intro wl q h
    simp only [whitelist_append]
    by_cases hc : wl.any (fun wp => wp.ip == p.ip && wp.port == p.port)
      = true
    · rw [if_pos hc]
      exact ih wl q h
    · rw [if_neg hc]
      exact ih (wl ++ [p]) q (List.mem_append_left _ h)

theorem new_candidates_spec {st : GatewayState} {raw : List ProxyDesc}
    {p : ProxyDesc} (h : p ∈ new_candidates st raw) :
    p ∈ raw ∧ proxy_id p ∉ st.whitelist.map proxy_id ∧
      proxy_id p ∉ st.recently_failed := by
  unfold new_candidates at h
  have h' := List.mem_filter.mp h
  refine ⟨h'.1, ?_, ?_⟩ <;>
    [skip; skip] <;>
    · have hb := h'.2
      simp only [Bool.and_eq_true, Bool.not_eq_true', decide_eq_false_iff_not]
        at hb
      first
        | exact hb.1
        | exact hb.2

/-- gemini-handler claim C9: in the discovered, health-checked egress mode,
a descriptor whose probe fails during a harvester cycle (as a new candidate
or as a whitelisted descriptor being rechecked) is in the recently-failed
set at the end of the probing phases and no descriptor with its id is in
the whitelist the cycle publishes; and any selection made while the
whitelist is nonempty draws whitelist[r mod length] for seed r — uniformly
at random from the current whitelist only.  The id-nodup hypotheses state
that neither the provider list nor the whitelist carries two descriptors
with the same ip:port. -/
theorem claim9_failed_probe_blacklisted_and_uniform_selection
    (st : GatewayState) (raw : List ProxyDesc)
    (outcome : ProxyDesc → ProbeOutcome) (recheck_due : Bool)
    (max_proxies : Nat) (p : ProxyDesc)
    (hnodraw : (raw.map proxy_id).Nodup)
    (hnodwl : (st.whitelist.map proxy_id).Nodup)
    (hfail : probe_ok (outcome p) = false)
    (hprobed : p ∈ new_candidates st raw ∨
      (recheck_due = true ∧ p ∈ st.whitelist)) :
    (proxy_id p ∈ (harvest_phases st raw outcome recheck_due).recently_failed
      ∧ ∀ q ∈ (harvester_cycle st raw outcome recheck_due
          max_proxies).whitelist, proxy_id q ≠ proxy_id p)
    ∧ ∀ (st' : GatewayState) (hc : Bool) (swift : List ProxyDesc) (r : Nat),
        st'.whitelist ≠ [] →
        ∃ hlt : r % st'.whitelist.length < st'.whitelist.length,
          get_whitelisted_proxy st' hc swift r
            = some (st'.whitelist.get ⟨r % st'.whitelist.length, hlt⟩)
          ∧ st'.whitelist.get ⟨r % st'.whitelist.length, hlt⟩
            ∈ st'.whitelist := by
  constructor
  · -- the harvester part
    -- notation for the two phases
    have habs : ∀ q ∈ (harvest_phases st raw outcome recheck_due).whitelist,
        proxy_id q ≠ proxy_id p := by
      intro q hq hqp
      unfold harvest_phases at hq
      rcases hprobed with hnew | ⟨hdue, hwl⟩
      · -- p was a failing new candidate
        obtain ⟨hpraw, hpnotwl, _⟩ := new_candidates_spec hnew
        have hq1 : q ∈ whitelist_append st.whitelist
            (run_checks outcome (new_candidates st raw) st).1 := by
          by_cases hdue : recheck_due = true
          · rw [hdue] at hq
            simp only [if_true] at hq
            exact (run_checks_passed_sub outcome _ _ q hq).1
          · rw [eq_false_of_ne_true hdue] at hq
            simp only [Bool.false_eq_true, if_false] at hq
            exact hq
        rcases whitelist_append_sub _ _ q hq1 with hq2 | hq2
        · exact hpnotwl (hqp ▸ List.mem_map_of_mem proxy_id hq2)
        · obtain ⟨hqcand, hqok⟩ := run_checks_passed_sub outcome _ _ q hq2
          have hqraw : q ∈ raw := (new_candidates_spec hqcand).1
          have hqp' : q = p :=
            List.inj_on_of_nodup_map hnodraw hqraw hpraw hqp
          rw [hqp'] at hqok
          rw [hqok] at hfail
          exact Bool.noConfusion hfail
      · -- p was a failing whitelisted descriptor under recheck
        rw [hdue] at hq
        simp only [if_true] at hq
        obtain ⟨hq1, hqok⟩ := run_checks_passed_sub outcome _ _ q hq
        rcases whitelist_append_sub _ _ q hq1 with hq2 | hq2
        · have hqp' : q = p :=
            List.inj_on_of_nodup_map hnodwl hq2 hwl hqp
          rw [hqp'] at hqok
          rw [hqok] at hfail
          exact Bool.noConfusion hfail
        · obtain ⟨hqcand, _⟩ := run_checks_passed_sub outcome _ _ q hq2
          have hqnotwl := (new_candidates_spec hqcand).2.1
          exact hqnotwl (hqp ▸ List.mem_map_of_mem proxy_id hwl)
    constructor
    · -- p's id lands in the recently-failed set of the probing phases
      unfold harvest_phases
      rcases hprobed with hnew | ⟨hdue, hwl⟩
      · have h1 : proxy_id p ∈ (run_checks outcome (new_candidates st raw)
            st).2.recently_failed :=
          run_checks_adds_failed outcome _ st p hnew hfail
        by_cases hdue : recheck_due = true
        · rw [hdue]
          simp only [if_true]
          exact run_checks_failed_mono outcome _ _ _ h1
        · rw [eq_false_of_ne_true hdue]
          simp only [Bool.false_eq_true, if_false]
          exact h1
      · rw [hdue]
        simp only [if_true]
        exact run_checks_adds_failed outcome _ _ p
          (whitelist_append_left _ _ p hwl) hfail
    · -- the published whitelist of the full cycle excludes p's id
      intro q hq
      unfold harvester_cycle at hq
      by_cases hclear : (harvest_phases st raw outcome
          recheck_due).recently_failed.length > max_proxies * 2
      · rw [if_pos hclear] at hq
        exact habs q hq
      · rw [if_neg hclear] at hq
        exact habs q hq
  · -- the selection part
    intro st' hc swift r hne
    have hlen : 0 < st'.whitelist.length := List.length_pos.mpr hne
    have hlt : r % st'.whitelist.length < st'.whitelist.length :=
      Nat.mod_lt r hlen
    refine ⟨hlt, ?_, List.get_mem _ _ _⟩
    unfold get_whitelisted_proxy
    rw [if_neg (by simp [List.isEmpty_iff, hne])]
    rw [List.getElem?_eq_getElem hlt]
    rfl

/-- Concrete state for the claim C9 witness: one healthy whitelisted proxy
and one new candidate whose probe fails with a network error. -/
def c9_state : GatewayState :=
  { whitelist := [{ ip := "10.0.0.1", port := 8080, protocol := "http" }],
    recently_failed := [] }

theorem claim9_witness :
    ((([{ ip := "10.0.0.2", port := 3128, protocol := "http" }] :
        List ProxyDesc).map proxy_id).Nodup
      ∧ (c9_state.whitelist.map proxy_id).Nodup
      ∧ probe_ok ((fun _ => ProbeOutcome.netError)
          ({ ip := "10.0.0.2", port := 3128, protocol := "http" } :
            ProxyDesc)) = false
      ∧ ({ ip := "10.0.0.2", port := 3128, protocol := "http" } : ProxyDesc)
          ∈ new_candidates c9_state
            [{ ip := "10.0.0.2", port := 3128, protocol := "http" }])
    ∧ ((proxy_id { ip := "10.0.0.2", port := 3128, protocol := "http" }
          ∈ (harvest_phases c9_state
            [{ ip := "10.0.0.2", port := 3128, protocol := "http" }]
            (fun _ => ProbeOutcome.netError) false).recently_failed
        ∧ ∀ q ∈ (harvester_cycle c9_state
            [{ ip := "10.0.0.2", port := 3128, protocol := "http" }]
            (fun _ => ProbeOutcome.netError) false 10).whitelist,
            proxy_id q ≠ proxy_id
              { ip := "10.0.0.2", port := 3128, protocol := "http" })
      ∧ ∀ (st' : GatewayState) (hc : Bool) (swift : List ProxyDesc)
          (r : Nat), st'.whitelist ≠ [] →
          ∃ hlt : r % st'.whitelist.length < st'.whitelist.length,
            get_whitelisted_proxy st' hc swift r
              = some (st'.whitelist.get ⟨r % st'.whitelist.length, hlt⟩)
            ∧ st'.whitelist.get ⟨r % st'.whitelist.length, hlt⟩
              ∈ st'.whitelist) := by
  refine ⟨⟨by decide, by decide, by decide, by decide⟩, ?_⟩
  exact claim9_failed_probe_blacklisted_and_uniform_selection c9_state
    [{ ip := "10.0.0.2", port := 3128, protocol := "http" }]
    (fun _ => ProbeOutcome.netError) false 10
    { ip := "10.0.0.2", port := 3128, protocol := "http" }
    (by decide) (by decide) (by decide)
    (Or.inl (by decide))

end GeminiHandlerSpec
